import Mathlib

/-!
TankBattleGame: combat and AI core.

Shallow embedding of `src/TankBattleGame.cpp` (TankBase, PlayerTank, EnemyTank,
Projectile, Obstacle).

Modelling conventions.

* C++ `float` values are rationals (`ℚ`). Arithmetic on them is exact, except in
  the fire gate of `ATankBase.FireBinary32`, where the difference and the quotient
  are rounded to binary32 (round to nearest, ties to even, subnormals, overflow to
  infinity) as the program does; NaN and the negative zero are not modelled.
* Actor pointers are `Option ActorId` (`none` is the null pointer); a component
  pointer that is only tested for null is a `Bool`.
* Everything the host engine answers during one call (world time, spawn result,
  line trace, navigation sample, vector math, the base-class `TakeDamage`) is read
  from a `World` snapshot that is an argument of the call.
* Every command sent to the engine (spawn, move request, destroy, effects) is
  appended to the list of `Event`s a function returns next to the new state.
-/

namespace TankBattle

/-! ## Engine value types -/

/-- Identity of an actor in the world (a non-null `AActor*`). -/
abbrev ActorId := Nat

/-- Engine `FVector`. -/
structure FVector where
  X : ℚ
  Y : ℚ
  Z : ℚ
deriving DecidableEq

/-- Engine `FRotator`; the C++ constructor order is `FRotator(Pitch, Yaw, Roll)`. -/
structure FRotator where
  Pitch : ℚ
  Yaw : ℚ
  Roll : ℚ
deriving DecidableEq

/-- Engine constant `FVector::ZeroVector`. -/
def FVector.ZeroVector : FVector := ⟨0, 0, 0⟩

/-- Engine constant `FRotator::ZeroRotator`. -/
def FRotator.ZeroRotator : FRotator := ⟨0, 0, 0⟩

/-- Component-wise `FVector` difference (`operator-`). -/
def FVector.sub (a b : FVector) : FVector := ⟨a.X - b.X, a.Y - b.Y, a.Z - b.Z⟩

/-- Modelled from the spec: `FMath::Clamp` is engine code that is not part of the
repository sources; the spec writes `clamp(currentHealth − amount, 0, maxHealth)`.
The usual three-way definition `X < Min ? Min : (X < Max ? X : Max)` is used. -/
def FMath.Clamp (X Min Max : ℚ) : ℚ :=
  if X < Min then Min else if X < Max then X else Max

/-- Commands issued to the host engine, in program order. -/
inductive Event where
  | SpawnActor (SpawnLocation : FVector) (SpawnRotation : FRotator)
  | SetOwner (Projectile : ActorId) (NewOwner : ActorId)
  | StopMovement
  | MoveTo (GoalLocation : FVector) (AcceptanceRadius : ℚ)
  | AddActorLocalOffset (DeltaLocation : FVector)
  | AddActorLocalRotation (DeltaRotation : FRotator)
  | SetActorHiddenInGame (bNewHidden : Bool)
  | SetActorTickEnabled (bEnabled : Bool)
  | SpawnEmitterAtLocation (Location : FVector)
  | PlaySoundAtLocation (Location : FVector)
  | ClearTimer
  | Destroy (Actor : ActorId)
  | ApplyPointDamage (DamagedActor : ActorId) (BaseDamage : ℚ) (HitFromDirection : FVector)
deriving DecidableEq

/-- Snapshot of what the host engine answers during one call. -/
structure World where
  /-- Result of `GetWorld()->GetTimeSeconds()`. -/
  TimeSeconds : ℚ
  /-- Result of `GetWorld()->GetDeltaSeconds()`. -/
  DeltaSeconds : ℚ
  /-- Result of `Super::TakeDamage(DamageAmount, ...)`, the engine's base implementation. -/
  SuperTakeDamage : ℚ → ℚ
  /-- Result of `GetWorld()->SpawnActor<AProjectile>(ProjectileClass, Location, Rotation)`. -/
  SpawnActor : FVector → FRotator → Option ActorId
  /-- Result of `GetActorLocation()` on the given actor. -/
  ActorLocation : ActorId → FVector
  /-- Result of `IsDestroyed()` on another tank. -/
  TankIsDestroyed : ActorId → Bool
  /-- Engine `FVector::Dist`. -/
  Dist : FVector → FVector → ℚ
  /-- Engine `FVector::Rotation()`. -/
  Rotation : FVector → FRotator
  /-- Engine `FMath::RInterpTo(Current, Target, DeltaTime, InterpSpeed)`. -/
  RInterpTo : FRotator → FRotator → ℚ → ℚ → FRotator
  /-- Actor of the first blocking hit of `LineTraceSingleByChannel(Start, End)`, if any. -/
  LineTraceSingleByChannel : FVector → FVector → Option ActorId
  /-- The navigation system (`UNavigationSystemV1::GetCurrent`), if there is one, as
  its `GetRandomReachablePointInRadius(Origin, Radius)` query. -/
  NavSystem : Option (FVector → ℚ → Option FVector)
  /-- Result of `ProjectileSpawnPoint->GetComponentLocation()` of the given tank. -/
  SpawnPointLocation : ActorId → FVector
  /-- Result of `ProjectileSpawnPoint->GetComponentRotation()` of the given tank. -/
  SpawnPointRotation : ActorId → FRotator
  /-- Result of `TankTurret->GetComponentLocation()` of the given tank. -/
  TurretLocation : ActorId → FVector
  /-- `HitResult.Location` after `GetHitResultUnderCursor`. -/
  HitResultUnderCursor : FVector
  /-- Whether `Cast<AAIController>(GetController())` of the given pawn is non-null. -/
  AIController : ActorId → Bool
  /-- Whether `Cast<APlayerController>(GetController())` of the given pawn is non-null. -/
  PlayerController : ActorId → Bool
  /-- Result of `Cast<APlayerTank>(UGameplayStatics::GetPlayerPawn(this, 0))`. -/
  PlayerPawn : Option ActorId

/-! ## TankBase -/

/-- Fields of `ATankBase` that the logic reads or writes. -/
structure ATankBase where
  /-- The actor itself (`this`). -/
  self : ActorId
  /-- `TankTurret` is non-null. -/
  TankTurret : Bool
  /-- World rotation of the turret component (`TankTurret->GetComponentRotation()`). -/
  TurretRotation : FRotator
  /-- `ProjectileSpawnPoint` is non-null. -/
  ProjectileSpawnPoint : Bool
  MaxHealth : ℚ
  CurrentHealth : ℚ
  MoveSpeed : ℚ
  TurnRate : ℚ
  TurretRotationSpeed : ℚ
  FireRate : ℚ
  /-- `ProjectileClass` is set. -/
  ProjectileClass : Bool
  LastFireTime : ℚ
  bIsDestroyed : Bool
deriving DecidableEq

/-- Constructor `ATankBase::ATankBase` with the in-class initialisers: the
components are created, `ProjectileClass` is unset, `CurrentHealth` is
zero-initialised, `LastFireTime = 0.0f`, `bIsDestroyed = false`. -/
def ATankBase.ctor (self : ActorId) : ATankBase :=
  { self := self
    TankTurret := true
    TurretRotation := FRotator.ZeroRotator
    ProjectileSpawnPoint := true
    MaxHealth := 100
    CurrentHealth := 0
    MoveSpeed := 400
    TurnRate := 100
    TurretRotationSpeed := 5
    FireRate := 2
    ProjectileClass := false
    LastFireTime := 0
    bIsDestroyed := false }

/-- Method `ATankBase::BeginPlay`. -/
def ATankBase.BeginPlay (t : ATankBase) : ATankBase :=
  { t with CurrentHealth := t.MaxHealth }

/-- Accessor `ATankBase::IsDestroyed`. -/
def ATankBase.IsDestroyed (t : ATankBase) : Bool := t.bIsDestroyed

/-- Method `ATankBase::Tick`: only forwards to the engine. -/
def ATankBase.Tick (_w : World) (t : ATankBase) : ATankBase × List Event := (t, [])

/-- Method `ATankBase::Fire`, with the gate `CurrentTime - LastFireTime < 1.0f /
FireRate` evaluated in exact rational arithmetic. The program rounds the difference
and the quotient to binary32 before it compares them (and `1.0f / 0` is infinite);
`ATankBase.FireBinary32` below has the same body with the rounded gate, and the two
agree whenever rounding does not change the comparison (`fireBinary32_eq_fire`).
The statements about `Fire` assume `FireRate > 0`. -/
def ATankBase.Fire (w : World) (t : ATankBase) : ATankBase × List Event :=
  if t.bIsDestroyed then (t, [])
  else
    let CurrentTime := w.TimeSeconds
    if CurrentTime - t.LastFireTime < 1 / t.FireRate then (t, [])
    else if t.ProjectileClass && t.ProjectileSpawnPoint then
      let SpawnLocation := w.SpawnPointLocation t.self
      let SpawnRotation := w.SpawnPointRotation t.self
      match w.SpawnActor SpawnLocation SpawnRotation with
      | some Projectile =>
        ({ t with LastFireTime := CurrentTime },
         [Event.SpawnActor SpawnLocation SpawnRotation, Event.SetOwner Projectile t.self])
      | none => (t, [Event.SpawnActor SpawnLocation SpawnRotation])
    else (t, [])

/-- Method `ATankBase::RotateTurretTowards`. -/
def ATankBase.RotateTurretTowards (w : World) (t : ATankBase) (TargetLocation : FVector) :
    ATankBase × List Event :=
  if !t.TankTurret || t.bIsDestroyed then (t, [])
  else
    let Direction := FVector.sub TargetLocation (w.TurretLocation t.self)
    let Direction := { Direction with Z := 0 }
    let TargetRotation := w.Rotation Direction
    let CurrentRotation := t.TurretRotation
    let NewRotation := w.RInterpTo CurrentRotation TargetRotation w.DeltaSeconds t.TurretRotationSpeed
    ({ t with TurretRotation := ⟨0, NewRotation.Yaw, 0⟩ }, [])

/-- Method `ATankBase::HandleDestruction` (the base implementation). -/
def ATankBase.HandleDestruction (w : World) (t : ATankBase) : ATankBase × List Event :=
  ({ t with bIsDestroyed := true },
   [Event.SetActorHiddenInGame true, Event.SetActorTickEnabled false,
    Event.SpawnEmitterAtLocation (w.ActorLocation t.self)])

/-- Body of `ATankBase::TakeDamage`. The call `HandleDestruction()` is virtual; the
implementation selected by the dynamic class of the tank is the argument `virt`.
Returns `ActualDamage`, the new state and the commands issued. -/
def ATankBase.TakeDamageVia (virt : World → ATankBase → ATankBase × List Event)
    (w : World) (t : ATankBase) (DamageAmount : ℚ) : ℚ × ATankBase × List Event :=
  let ActualDamage := w.SuperTakeDamage DamageAmount
  let t1 := { t with CurrentHealth := FMath.Clamp (t.CurrentHealth - ActualDamage) 0 t.MaxHealth }
  if t1.CurrentHealth ≤ 0 ∧ t1.bIsDestroyed = false then
    let r := virt w t1
    (ActualDamage, r.1, r.2)
  else (ActualDamage, t1, [])

/-- Method `ATankBase::TakeDamage` on an object whose dynamic class is `ATankBase`. -/
def ATankBase.TakeDamage (w : World) (t : ATankBase) (DamageAmount : ℚ) :
    ℚ × ATankBase × List Event :=
  ATankBase.TakeDamageVia ATankBase.HandleDestruction w t DamageAmount

/-- State after a sequence of `TakeDamage` calls on a tank, each call with its own
world snapshot and `DamageAmount`, together with all commands issued. -/
def ATankBase.TakeDamageSeq (virt : World → ATankBase → ATankBase × List Event)
    (t : ATankBase) : List (World × ℚ) → ATankBase × List Event
  | [] => (t, [])
  | c :: cs =>
    let r := ATankBase.TakeDamageVia virt c.1 t c.2
    let rest := ATankBase.TakeDamageSeq virt r.2.1 cs
    (rest.1, r.2.2 ++ rest.2)

/-! ## PlayerTank -/

/-- Class `APlayerTank : ATankBase`. -/
structure APlayerTank extends ATankBase where
  /-- `PlayerControllerRef` is non-null. -/
  PlayerControllerRef : Bool
deriving DecidableEq

/-- Method `APlayerTank::BeginPlay`. -/
def APlayerTank.BeginPlay (w : World) (p : APlayerTank) : APlayerTank :=
  { p with
    toATankBase := ATankBase.BeginPlay p.toATankBase
    PlayerControllerRef := w.PlayerController p.self }

/-- Result of an inherited `ATankBase` method, seen on the `APlayerTank` object. -/
def APlayerTank.withBase (p : APlayerTank) (r : ATankBase × List Event) :
    APlayerTank × List Event :=
  ({ p with toATankBase := r.1 }, r.2)

/-- Method `APlayerTank::GetMouseHitLocation`. -/
def APlayerTank.GetMouseHitLocation (w : World) (p : APlayerTank) : FVector :=
  if p.PlayerControllerRef then w.HitResultUnderCursor else FVector.ZeroVector

/-- Method `APlayerTank::Tick`. -/
def APlayerTank.Tick (w : World) (p : APlayerTank) : APlayerTank × List Event :=
  if p.PlayerControllerRef && !p.IsDestroyed then
    let MouseWorldLocation := p.GetMouseHitLocation w
    p.withBase (ATankBase.RotateTurretTowards w p.toATankBase MouseWorldLocation)
  else (p, [])

/-- Method `APlayerTank::MoveForward`. -/
def APlayerTank.MoveForward (w : World) (p : APlayerTank) (Value : ℚ) :
    APlayerTank × List Event :=
  if p.IsDestroyed then (p, [])
  else
    let DeltaLocation := { FVector.ZeroVector with X := Value * p.MoveSpeed * w.DeltaSeconds }
    (p, [Event.AddActorLocalOffset DeltaLocation])

/-- Method `APlayerTank::Turn`. -/
def APlayerTank.Turn (w : World) (p : APlayerTank) (Value : ℚ) : APlayerTank × List Event :=
  if p.IsDestroyed then (p, [])
  else
    let DeltaRotation := { FRotator.ZeroRotator with Yaw := Value * p.TurnRate * w.DeltaSeconds }
    (p, [Event.AddActorLocalRotation DeltaRotation])

/-- Method `APlayerTank::FireInput`. -/
def APlayerTank.FireInput (w : World) (p : APlayerTank) : APlayerTank × List Event :=
  p.withBase (ATankBase.Fire w p.toATankBase)

/-- Override `APlayerTank::HandleDestruction`. It touches inherited members only,
so it is given on the `ATankBase` part of the object. -/
def APlayerTank.HandleDestruction (w : World) (t : ATankBase) : ATankBase × List Event :=
  let r := ATankBase.HandleDestruction w t
  (r.1, r.2 ++ [Event.SetActorHiddenInGame true, Event.SetActorTickEnabled false])

/-- Inherited `ATankBase::TakeDamage` on a player tank: the virtual call reaches
`APlayerTank::HandleDestruction`. -/
def APlayerTank.TakeDamage (w : World) (p : APlayerTank) (DamageAmount : ℚ) :
    ℚ × APlayerTank × List Event :=
  let r := ATankBase.TakeDamageVia APlayerTank.HandleDestruction w p.toATankBase DamageAmount
  (r.1, { p with toATankBase := r.2.1 }, r.2.2)

/-! ## EnemyTank -/

/-- Enum `EAIState`. -/
inductive EAIState where
  | Idle
  | Patrolling
  | Chasing
  | Attacking
deriving DecidableEq

/-- Class `AEnemyTank : ATankBase`. -/
structure AEnemyTank extends ATankBase where
  DetectionRange : ℚ
  AttackRange : ℚ
  PatrolRadius : ℚ
  CurrentState : EAIState
  /-- `AIControllerRef` is non-null. -/
  AIControllerRef : Bool
  /-- The tracked player (`PlayerTank`), `none` for a null pointer. -/
  PlayerTank : Option ActorId
  InitialLocation : FVector
  CurrentPatrolTarget : FVector
deriving DecidableEq

/-- Result of an inherited `ATankBase` method, seen on the `AEnemyTank` object. -/
def AEnemyTank.withBase (e : AEnemyTank) (r : ATankBase × List Event) :
    AEnemyTank × List Event :=
  ({ e with toATankBase := r.1 }, r.2)

/-- Constructor `AEnemyTank::AEnemyTank` with the in-class initialisers
(`DetectionRange = 1500`, `AttackRange = 800`, `PatrolRadius = 1000`,
`CurrentState = Idle`); pointers and vectors are zero-initialised. -/
def AEnemyTank.ctor (self : ActorId) : AEnemyTank :=
  { toATankBase := ATankBase.ctor self
    DetectionRange := 1500
    AttackRange := 800
    PatrolRadius := 1000
    CurrentState := EAIState.Idle
    AIControllerRef := false
    PlayerTank := none
    InitialLocation := FVector.ZeroVector
    CurrentPatrolTarget := FVector.ZeroVector }

/-- Method `AEnemyTank::GetRandomPatrolPoint`. -/
def AEnemyTank.GetRandomPatrolPoint (w : World) (e : AEnemyTank) : FVector :=
  match w.NavSystem with
  | some GetRandomReachablePointInRadius =>
    match GetRandomReachablePointInRadius e.InitialLocation e.PatrolRadius with
    | some RandomLocation => RandomLocation
    | none => e.InitialLocation
  | none => e.InitialLocation

/-- Method `AEnemyTank::BeginPlay`. -/
def AEnemyTank.BeginPlay (w : World) (e : AEnemyTank) : AEnemyTank :=
  let e1 := { e with toATankBase := ATankBase.BeginPlay e.toATankBase }
  let e2 := { e1 with AIControllerRef := w.AIController e1.self }
  let e3 := { e2 with PlayerTank := w.PlayerPawn }
  let e4 := { e3 with InitialLocation := w.ActorLocation e3.self }
  { e4 with CurrentPatrolTarget := e4.GetRandomPatrolPoint w }

/-- Method `AEnemyTank::UpdateAIState`. -/
def AEnemyTank.UpdateAIState (w : World) (e : AEnemyTank) : AEnemyTank :=
  match e.PlayerTank with
  | none => { e with CurrentState := EAIState.Patrolling }
  | some Player =>
    if w.TankIsDestroyed Player then { e with CurrentState := EAIState.Patrolling }
    else
      let DistanceToPlayer := w.Dist (w.ActorLocation e.self) (w.ActorLocation Player)
      if DistanceToPlayer ≤ e.AttackRange then { e with CurrentState := EAIState.Attacking }
      else if DistanceToPlayer ≤ e.DetectionRange then { e with CurrentState := EAIState.Chasing }
      else { e with CurrentState := EAIState.Patrolling }

/-- Method `AEnemyTank::MoveToTarget`. -/
def AEnemyTank.MoveToTarget (e : AEnemyTank) (TargetLocation : FVector) : List Event :=
  if e.AIControllerRef then [Event.MoveTo TargetLocation 50] else []

/-- Method `AEnemyTank::HandleIdleState`. -/
def AEnemyTank.HandleIdleState (e : AEnemyTank) : AEnemyTank × List Event := (e, [])

/-- Method `AEnemyTank::HandlePatrollingState`. -/
def AEnemyTank.HandlePatrollingState (w : World) (e : AEnemyTank) : AEnemyTank × List Event :=
  let e1 :=
    if w.Dist (w.ActorLocation e.self) e.CurrentPatrolTarget < 100 then
      { e with CurrentPatrolTarget := e.GetRandomPatrolPoint w }
    else e
  (e1, e1.MoveToTarget e1.CurrentPatrolTarget)

/-- Method `AEnemyTank::HandleChasingState`. -/
def AEnemyTank.HandleChasingState (w : World) (e : AEnemyTank) : AEnemyTank × List Event :=
  match e.PlayerTank with
  | none => (e, [])
  | some Player =>
    if !w.TankIsDestroyed Player then
      let moves := e.MoveToTarget (w.ActorLocation Player)
      let r := e.withBase (ATankBase.RotateTurretTowards w e.toATankBase (w.ActorLocation Player))
      (r.1, moves ++ r.2)
    else (e, [])

/-- Method `AEnemyTank::HandleAttackingState`. -/
def AEnemyTank.HandleAttackingState (w : World) (e : AEnemyTank) : AEnemyTank × List Event :=
  match e.PlayerTank with
  | none => (e, [])
  | some Player =>
    if !w.TankIsDestroyed Player then
      let stop := if e.AIControllerRef then [Event.StopMovement] else []
      let r := e.withBase (ATankBase.RotateTurretTowards w e.toATankBase (w.ActorLocation Player))
      let Start := w.ActorLocation e.self
      let End := w.ActorLocation Player
      let HitActor := w.LineTraceSingleByChannel Start End
      if HitActor = some Player then
        let f := r.1.withBase (ATankBase.Fire w r.1.toATankBase)
        (f.1, stop ++ r.2 ++ f.2)
      else (r.1, stop ++ r.2)
    else (e, [])

/-- Method `AEnemyTank::ExecuteAIBehavior`. -/
def AEnemyTank.ExecuteAIBehavior (w : World) (e : AEnemyTank) : AEnemyTank × List Event :=
  match e.CurrentState with
  | EAIState.Idle => e.HandleIdleState
  | EAIState.Patrolling => e.HandlePatrollingState w
  | EAIState.Chasing => e.HandleChasingState w
  | EAIState.Attacking => e.HandleAttackingState w

/-- Method `AEnemyTank::Tick`. -/
def AEnemyTank.Tick (w : World) (e : AEnemyTank) : AEnemyTank × List Event :=
  if !e.IsDestroyed then (e.UpdateAIState w).ExecuteAIBehavior w
  else (e, [])

/-- Method `AEnemyTank::IsPlayerInRange`. -/
def AEnemyTank.IsPlayerInRange (w : World) (e : AEnemyTank) (Range : ℚ) : Bool :=
  match e.PlayerTank with
  | none => false
  | some Player =>
    if w.TankIsDestroyed Player then false
    else decide (w.Dist (w.ActorLocation e.self) (w.ActorLocation Player) ≤ Range)

/-- Override `AEnemyTank::HandleDestruction`. It touches inherited members only,
so it is given on the `ATankBase` part of the object. -/
def AEnemyTank.HandleDestruction (w : World) (t : ATankBase) : ATankBase × List Event :=
  let r := ATankBase.HandleDestruction w t
  (r.1, r.2 ++ [Event.ClearTimer, Event.Destroy t.self])

/-- Inherited `ATankBase::TakeDamage` on an enemy tank: the virtual call reaches
`AEnemyTank::HandleDestruction`. -/
def AEnemyTank.TakeDamage (w : World) (e : AEnemyTank) (DamageAmount : ℚ) :
    ℚ × AEnemyTank × List Event :=
  let r := ATankBase.TakeDamageVia AEnemyTank.HandleDestruction w e.toATankBase DamageAmount
  (r.1, { e with toATankBase := r.2.1 }, r.2.2)

/-- Dynamic class of a tank object. -/
inductive TankClass where
  | TankBase
  | PlayerTank
  | EnemyTank
deriving DecidableEq

/-- Virtual dispatch of `HandleDestruction()` on the dynamic class. -/
def TankClass.HandleDestruction : TankClass → World → ATankBase → ATankBase × List Event
  | TankClass.TankBase => ATankBase.HandleDestruction
  | TankClass.PlayerTank => APlayerTank.HandleDestruction
  | TankClass.EnemyTank => AEnemyTank.HandleDestruction

/-! ## Binary32 arithmetic of the fire gate -/

/-- Rounding of a rational to the nearest integer, ties to the even integer. -/
def roundHalfEven (q : ℚ) : ℤ :=
  if q - ⌊q⌋ < 1 / 2 then ⌊q⌋
  else if 1 / 2 < q - ⌊q⌋ then ⌊q⌋ + 1
  else if ⌊q⌋ % 2 = 0 then ⌊q⌋ else ⌊q⌋ + 1

/-- Result of a binary32 (IEEE 754 single precision) operation on finite operands:
a finite value or an infinity. -/
inductive Binary32 where
  | negInf
  | finite (value : ℚ)
  | posInf
deriving DecidableEq

/-- Binary exponent that fixes the spacing of binary32 values around `x`: the
exponent of `|x|`, but not below `-126` (subnormal range). -/
def Binary32.exponent (x : ℚ) : ℤ :=
  if x = 0 then -126 else max (Int.log 2 |x|) (-126)

/-- Spacing of the binary32 values around `x` (24 significant bits). -/
def Binary32.ulp (x : ℚ) : ℚ := 2 ^ (Binary32.exponent x - 23)

/-- Value `x` rounded to 24 significant bits, ties to even, exponent unbounded
above. -/
def Binary32.nearest (x : ℚ) : ℚ :=
  (roundHalfEven (x / Binary32.ulp x) : ℚ) * Binary32.ulp x

/-- Largest finite binary32 value, `(2^24 - 1) * 2^104`. -/
def Binary32.maxFinite : ℚ := (2 ^ 24 - 1) * 2 ^ 104

/-- Rounding of an exact result to binary32: round to nearest, ties to even;
results beyond the largest finite value become infinite. -/
def Binary32.round (x : ℚ) : Binary32 :=
  if Binary32.maxFinite < Binary32.nearest x then Binary32.posInf
  else if Binary32.nearest x < -Binary32.maxFinite then Binary32.negInf
  else Binary32.finite (Binary32.nearest x)

/-- The binary32 difference `a - b` of two finite values. -/
def Binary32.sub (a b : ℚ) : Binary32 := Binary32.round (a - b)

/-- The binary32 quotient `1.0f / b` of a finite value `b`; division by zero gives
`+inf` (the divisor `-0.0f` is not modelled). -/
def Binary32.oneDiv (b : ℚ) : Binary32 :=
  if b = 0 then Binary32.posInf else Binary32.round (1 / b)

/-- The comparison `a < b` of binary32 values. -/
def Binary32.lt : Binary32 → Binary32 → Bool
  | Binary32.negInf, Binary32.negInf => false
  | Binary32.negInf, _ => true
  | Binary32.finite _, Binary32.negInf => false
  | Binary32.finite a, Binary32.finite b => decide (a < b)
  | Binary32.finite _, Binary32.posInf => true
  | Binary32.posInf, _ => false

/-- The comparison `a >= b` of binary32 values. -/
def Binary32.ge : Binary32 → Binary32 → Bool
  | _, Binary32.negInf => true
  | Binary32.negInf, _ => false
  | Binary32.finite a, Binary32.finite b => decide (a ≥ b)
  | Binary32.finite _, Binary32.posInf => false
  | Binary32.posInf, _ => true

/-- Method `ATankBase::Fire` with the gate `CurrentTime - LastFireTime < 1.0f /
FireRate` evaluated as the program evaluates it, in binary32: the difference and
the quotient are rounded before they are compared. The rest of the body is that of
`ATankBase.Fire`. -/
def ATankBase.FireBinary32 (w : World) (t : ATankBase) : ATankBase × List Event :=
  if t.bIsDestroyed then (t, [])
  else
    let CurrentTime := w.TimeSeconds
    if Binary32.lt (Binary32.sub CurrentTime t.LastFireTime) (Binary32.oneDiv t.FireRate)
    then (t, [])
    else if t.ProjectileClass && t.ProjectileSpawnPoint then
      let SpawnLocation := w.SpawnPointLocation t.self
      let SpawnRotation := w.SpawnPointRotation t.self
      match w.SpawnActor SpawnLocation SpawnRotation with
      | some Projectile =>
        ({ t with LastFireTime := CurrentTime },
         [Event.SpawnActor SpawnLocation SpawnRotation, Event.SetOwner Projectile t.self])
      | none => (t, [Event.SpawnActor SpawnLocation SpawnRotation])
    else (t, [])

/-! ## Operation sequences on tanks -/

/-- The operations on a player tank: `Tick`, `Fire` (through `FireInput`),
`RotateTurretTowards`, `MoveForward`, `Turn` and `TakeDamage`, with their arguments. -/
inductive PlayerOp where
  | Tick
  | Fire
  | RotateTurretTowards (TargetLocation : FVector)
  | MoveForward (Value : ℚ)
  | Turn (Value : ℚ)
  | TakeDamage (DamageAmount : ℚ)
deriving DecidableEq

/-- One operation on a player tank: the new state and the commands issued (the
value returned by `TakeDamage` is dropped). -/
def APlayerTank.step (w : World) (p : APlayerTank) : PlayerOp → APlayerTank × List Event
  | PlayerOp.Tick => p.Tick w
  | PlayerOp.Fire => p.FireInput w
  | PlayerOp.RotateTurretTowards TargetLocation =>
    p.withBase (ATankBase.RotateTurretTowards w p.toATankBase TargetLocation)
  | PlayerOp.MoveForward Value => p.MoveForward w Value
  | PlayerOp.Turn Value => p.Turn w Value
  | PlayerOp.TakeDamage DamageAmount => (p.TakeDamage w DamageAmount).2

/-- State of a player tank after a sequence of operations, each in its own world
snapshot. -/
def APlayerTank.run (p : APlayerTank) : List (World × PlayerOp) → APlayerTank
  | [] => p
  | c :: cs => APlayerTank.run (p.step c.1 c.2).1 cs

/-- The applied amount of a `TakeDamage` operation is `≥ 0` (true of every other
operation). -/
def PlayerOp.appliedNonneg (w : World) : PlayerOp → Bool
  | PlayerOp.TakeDamage DamageAmount => decide (0 ≤ w.SuperTakeDamage DamageAmount)
  | _ => true

/-- The operations on an enemy tank: `Tick`, `Fire`, `RotateTurretTowards` and
`TakeDamage`, with their arguments. -/
inductive EnemyOp where
  | Tick
  | Fire
  | RotateTurretTowards (TargetLocation : FVector)
  | TakeDamage (DamageAmount : ℚ)
deriving DecidableEq

/-- One operation on an enemy tank: the new state and the commands issued (the
value returned by `TakeDamage` is dropped). -/
def AEnemyTank.step (w : World) (e : AEnemyTank) : EnemyOp → AEnemyTank × List Event
  | EnemyOp.Tick => e.Tick w
  | EnemyOp.Fire => e.withBase (ATankBase.Fire w e.toATankBase)
  | EnemyOp.RotateTurretTowards TargetLocation =>
    e.withBase (ATankBase.RotateTurretTowards w e.toATankBase TargetLocation)
  | EnemyOp.TakeDamage DamageAmount => (e.TakeDamage w DamageAmount).2

/-- State of an enemy tank after a sequence of operations, each in its own world
snapshot. -/
def AEnemyTank.run (e : AEnemyTank) : List (World × EnemyOp) → AEnemyTank
  | [] => e
  | c :: cs => AEnemyTank.run (e.step c.1 c.2).1 cs

/-- The applied amount of a `TakeDamage` operation is `≥ 0` (true of every other
operation). -/
def EnemyOp.appliedNonneg (w : World) : EnemyOp → Bool
  | EnemyOp.TakeDamage DamageAmount => decide (0 ≤ w.SuperTakeDamage DamageAmount)
  | _ => true

/-- State of a tank after a sequence of `Fire` calls, one world snapshot (time,
spawn result) per call. -/
def ATankBase.FireSeq (t : ATankBase) : List World → ATankBase
  | [] => t
  | w :: ws => ATankBase.FireSeq (ATankBase.Fire w t).1 ws

/-- State of a tank after a sequence of `RotateTurretTowards` calls, each with its
world snapshot (elapsed time, vector math) and target point. -/
def ATankBase.RotateSeq (t : ATankBase) : List (World × FVector) → ATankBase
  | [] => t
  | c :: cs => ATankBase.RotateSeq (ATankBase.RotateTurretTowards c.1 t c.2).1 cs

/-- Every `TakeDamage` call of the sequence that reaches the player tank while it
is destroyed has an applied amount `≥ 0` (calls on the live tank are free). -/
def APlayerTank.wreckDamageNonneg (p : APlayerTank) : List (World × PlayerOp) → Bool
  | [] => true
  | c :: cs =>
    (!p.bIsDestroyed || c.2.appliedNonneg c.1) &&
      APlayerTank.wreckDamageNonneg (p.step c.1 c.2).1 cs

/-- Every `TakeDamage` call of the sequence that reaches the enemy tank while it is
destroyed has an applied amount `≥ 0` (calls on the live tank are free). -/
def AEnemyTank.wreckDamageNonneg (e : AEnemyTank) : List (World × EnemyOp) → Bool
  | [] => true
  | c :: cs =>
    (!e.bIsDestroyed || c.2.appliedNonneg c.1) &&
      AEnemyTank.wreckDamageNonneg (e.step c.1 c.2).1 cs

/-- Health invariant of a tank in play: `MaxHealth > 0`, and a destroyed tank has
health `0`. -/
def ATankBase.HealthInv (t : ATankBase) : Prop :=
  0 < t.MaxHealth ∧ (t.bIsDestroyed = true → t.CurrentHealth = 0)

/-- Constructor `APlayerTank::APlayerTank`; the controller pointer is
zero-initialised. -/
def APlayerTank.ctor (self : ActorId) : APlayerTank :=
  { toATankBase := ATankBase.ctor self, PlayerControllerRef := false }

/-! ## Projectile -/

/-- Class `AProjectile`; `Owner` is what `GetOwner()` returns. -/
structure AProjectile where
  /-- The actor itself (`this`). -/
  self : ActorId
  Owner : Option ActorId
  Damage : ℚ
  LifeSpan : ℚ
deriving DecidableEq

/-- Method `AProjectile::OnHit`; `OtherActor` is `none` for a null pointer. -/
def AProjectile.OnHit (w : World) (p : AProjectile) (OtherActor : Option ActorId) :
    List Event :=
  match p.Owner with
  | none => []
  | some MyOwner =>
    match OtherActor with
    | none => []
    | some Other =>
      if Other ≠ p.self ∧ Other ≠ MyOwner then
        [Event.ApplyPointDamage Other p.Damage (w.ActorLocation p.self),
         Event.SpawnEmitterAtLocation (w.ActorLocation p.self),
         Event.PlaySoundAtLocation (w.ActorLocation p.self),
         Event.Destroy p.self]
      else []

/-! ## Obstacle -/

/-- Class `AObstacle`. -/
structure AObstacle where
  /-- The actor itself (`this`). -/
  self : ActorId
  bIsDestructible : Bool
  MaxHealth : ℚ
  CurrentHealth : ℚ
deriving DecidableEq

/-- Method `AObstacle::BeginPlay`. -/
def AObstacle.BeginPlay (o : AObstacle) : AObstacle :=
  { o with CurrentHealth := o.MaxHealth }

/-- Method `AObstacle::DestroyObstacle`. -/
def AObstacle.DestroyObstacle (w : World) (o : AObstacle) : List Event :=
  [Event.SpawnEmitterAtLocation (w.ActorLocation o.self),
   Event.PlaySoundAtLocation (w.ActorLocation o.self),
   Event.Destroy o.self]

/-- Method `AObstacle::TakeDamage`. Returns the returned amount, the new state and
the commands issued. -/
def AObstacle.TakeDamage (w : World) (o : AObstacle) (DamageAmount : ℚ) :
    ℚ × AObstacle × List Event :=
  if !o.bIsDestructible then (0, o, [])
  else
    let ActualDamage := w.SuperTakeDamage DamageAmount
    let o1 := { o with CurrentHealth := FMath.Clamp (o.CurrentHealth - ActualDamage) 0 o.MaxHealth }
    if o1.CurrentHealth ≤ 0 then (ActualDamage, o1, o1.DestroyObstacle w)
    else (ActualDamage, o1, [])

/-- State after a sequence of `TakeDamage` calls on an obstacle, with all commands
issued. -/
def AObstacle.TakeDamageSeq (o : AObstacle) : List (World × ℚ) → AObstacle × List Event
  | [] => (o, [])
  | c :: cs =>
    let r := AObstacle.TakeDamage c.1 o c.2
    let rest := AObstacle.TakeDamageSeq r.2.1 cs
    (rest.1, r.2.2 ++ rest.2)

/-- Recogniser of the explosion effect, the command every `HandleDestruction`
implementation and `DestroyObstacle` issue exactly once per invocation. -/
def Event.isSpawnEmitter : Event → Bool
  | Event.SpawnEmitterAtLocation _ => true
  | _ => false

/-! ## Concrete worlds and entities used in the examples -/

/-- A world at time `now` in which the engine applies damage unchanged, every
spawn succeeds (the new projectile is actor `900`), all actors sit at the origin,
distances are `0`, traces hit nothing and there is no navigation system. -/
def sampleWorld (now : ℚ) : World :=
  { TimeSeconds := now
    DeltaSeconds := 1 / 60
    SuperTakeDamage := fun DamageAmount => DamageAmount
    SpawnActor := fun _ _ => some 900
    ActorLocation := fun _ => FVector.ZeroVector
    TankIsDestroyed := fun _ => false
    Dist := fun _ _ => 0
    Rotation := fun _ => FRotator.ZeroRotator
    RInterpTo := fun _ Target _ _ => Target
    LineTraceSingleByChannel := fun _ _ => none
    NavSystem := none
    SpawnPointLocation := fun _ => FVector.ZeroVector
    SpawnPointRotation := fun _ => FRotator.ZeroRotator
    TurretLocation := fun _ => FVector.ZeroVector
    HitResultUnderCursor := FVector.ZeroVector
    AIController := fun _ => true
    PlayerController := fun _ => true
    PlayerPawn := some 1 }

/-- The world `sampleWorld now`, except that every spawn request fails. -/
def failedSpawnWorld (now : ℚ) : World :=
  { sampleWorld now with SpawnActor := fun _ _ => none }

/-- Two damage calls, `TakeDamage 30` at time `0` and `TakeDamage 80` at time `1`. -/
def sampleCalls : List (World × ℚ) := [(sampleWorld 0, 30), (sampleWorld 1, 80)]

/-- A tank (actor `2`) with the class defaults and a projectile class set, after
`BeginPlay`: `MaxHealth = CurrentHealth = 100`, `FireRate = 2`, `LastFireTime = 0`. -/
def sampleTank : ATankBase :=
  ATankBase.BeginPlay { ATankBase.ctor 2 with ProjectileClass := true }

/-- The tank `sampleTank` after one `TakeDamage 100` call at time `0`: health `0`,
destruction has fired. -/
def destroyedTank : ATankBase := (ATankBase.TakeDamage (sampleWorld 0) sampleTank 100).2.1

/-- The world `sampleWorld 0`, except that every distance is `d`. -/
def distWorld (d : ℚ) : World :=
  { sampleWorld 0 with Dist := fun _ _ => d }

/-- An enemy tank (actor `4`) with the class defaults and a projectile class set,
after `BeginPlay` in `sampleWorld 0`: it has an AI controller, tracks the player
(actor `1`), and `InitialLocation` and `CurrentPatrolTarget` are the origin. -/
def sampleEnemy : AEnemyTank :=
  AEnemyTank.BeginPlay (sampleWorld 0)
    { AEnemyTank.ctor 4 with toATankBase := { ATankBase.ctor 4 with ProjectileClass := true } }

/-- A projectile (actor `900`) with the class defaults (`Damage = 25`,
`LifeSpan = 3`) whose owner is the tank `2`. -/
def sampleProjectile : AProjectile :=
  { self := 900, Owner := some 2, Damage := 25, LifeSpan := 3 }

/-- The world `sampleWorld 0`, except that the player is destroyed, every distance
is `50`, and the navigation system answers every sampling with the point
`(300, 0, 0)`. -/
def repeatNavWorld : World :=
  { sampleWorld 0 with
    TankIsDestroyed := fun _ => true
    Dist := fun _ _ => 50
    NavSystem := some (fun _ _ => some ⟨300, 0, 0⟩) }

/-- The enemy `sampleEnemy` on patrol toward the point `(300, 0, 0)`. -/
def patrolEnemy : AEnemyTank :=
  { sampleEnemy with CurrentPatrolTarget := ⟨300, 0, 0⟩ }

/-- A player tank (actor `1`) with the class defaults after `BeginPlay` in
`sampleWorld 0`, then hit by `TakeDamage 60` at time `1` and `TakeDamage 60` at
time `2`. -/
def hitPlayer : APlayerTank :=
  APlayerTank.run (APlayerTank.BeginPlay (sampleWorld 0) (APlayerTank.ctor 1))
    [(sampleWorld 1, PlayerOp.TakeDamage 60), (sampleWorld 2, PlayerOp.TakeDamage 60)]

/-- An enemy tank (actor `4`) with the class defaults after `BeginPlay` in
`sampleWorld 0`, then ticked at time `1` and hit by `TakeDamage 100` at time `2`. -/
def hitEnemy : AEnemyTank :=
  AEnemyTank.run (AEnemyTank.BeginPlay (sampleWorld 0) (AEnemyTank.ctor 4))
    [(sampleWorld 1, EnemyOp.Tick), (sampleWorld 2, EnemyOp.TakeDamage 100)]

/-- The world `sampleWorld now`, except that every line trace hits the player
(actor `1`) first. -/
def clearShotWorld (now : ℚ) : World :=
  { sampleWorld now with LineTraceSingleByChannel := fun _ _ => some 1 }

/-- The tank `sampleTank` with its turret at pitch `10`, yaw `20`, roll `5`. -/
def tiltedTank : ATankBase :=
  { sampleTank with TurretRotation := ⟨10, 20, 5⟩ }

/-- The tank `tiltedTank` after one `TakeDamage 100` call at time `0`: destroyed,
turret still at pitch `10`, yaw `20`, roll `5`. -/
def tiltedWreck : ATankBase := (ATankBase.TakeDamage (sampleWorld 0) tiltedTank 100).2.1

/-- The world `sampleWorld now`, except that a direction is turned into the
rotation with pitch `3`, yaw `90`, roll `4` and the interpolation returns its
target. -/
def turningWorld (now : ℚ) : World :=
  { sampleWorld now with Rotation := fun _ => ⟨3, 90, 4⟩ }

/-- A constructed player tank (actor `1`) with the class defaults and a projectile
class set. -/
def loadedPlayer : APlayerTank :=
  { APlayerTank.ctor 1 with toATankBase := { ATankBase.ctor 1 with ProjectileClass := true } }

/-- Calls on a player tank: `TakeDamage (-10)` at time `1`, `TakeDamage 60` at time
`2`, `TakeDamage 60` at time `3`. -/
def wreckPlayerCalls : List (World × PlayerOp) :=
  [(sampleWorld 1, PlayerOp.TakeDamage (-10)), (sampleWorld 2, PlayerOp.TakeDamage 60),
   (sampleWorld 3, PlayerOp.TakeDamage 60)]

/-- The player `loadedPlayer` after `BeginPlay` and the calls `wreckPlayerCalls`:
health `100`, `100`, `40`, `0`, destroyed by the last call. -/
def wreckedPlayer : APlayerTank :=
  APlayerTank.run (APlayerTank.BeginPlay (sampleWorld 0) loadedPlayer) wreckPlayerCalls

/-- A constructed enemy tank (actor `4`) with the class defaults and a projectile
class set. -/
def loadedEnemy : AEnemyTank :=
  { AEnemyTank.ctor 4 with toATankBase := { ATankBase.ctor 4 with ProjectileClass := true } }

/-- Calls on an enemy tank: `Tick` at time `1` with a clear shot at the player,
`TakeDamage (-10)` at time `2`, `TakeDamage 100` at time `3`. -/
def wreckEnemyCalls : List (World × EnemyOp) :=
  [(clearShotWorld 1, EnemyOp.Tick), (sampleWorld 2, EnemyOp.TakeDamage (-10)),
   (sampleWorld 3, EnemyOp.TakeDamage 100)]

/-- The enemy `loadedEnemy` after `BeginPlay` and the calls `wreckEnemyCalls`:
destroyed by the last call. -/
def wreckedEnemy : AEnemyTank :=
  AEnemyTank.run (AEnemyTank.BeginPlay (sampleWorld 0) loadedEnemy) wreckEnemyCalls

/-- An obstacle (actor `3`) with the class defaults after `BeginPlay`:
destructible, `MaxHealth = CurrentHealth = 50`. -/
def sampleObstacle : AObstacle :=
  AObstacle.BeginPlay { self := 3, bIsDestructible := true, MaxHealth := 50, CurrentHealth := 0 }

/-! ## Health clamp -/

theorem clamp_nonneg (X Max : ℚ) (hMax : 0 ≤ Max) : 0 ≤ FMath.Clamp X 0 Max := by
  unfold FMath.Clamp
  split_ifs with h1 h2
  · exact le_refl 0
  · exact not_lt.mp h1
  · exact hMax

theorem clamp_le_max (X Max : ℚ) (hMax : 0 ≤ Max) : FMath.Clamp X 0 Max ≤ Max := by
  unfold FMath.Clamp
  split_ifs with h1 h2
  · exact hMax
  · exact le_of_lt h2
  · exact le_refl Max

theorem destruction_keeps_health (cls : TankClass) (w : World) (t : ATankBase) :
    (cls.HandleDestruction w t).1.CurrentHealth = t.CurrentHealth ∧
    (cls.HandleDestruction w t).1.MaxHealth = t.MaxHealth := by
  cases cls <;>
    simp [TankClass.HandleDestruction, ATankBase.HandleDestruction,
      APlayerTank.HandleDestruction, AEnemyTank.HandleDestruction]

theorem tank_step_health (cls : TankClass) (w : World) (t : ATankBase)
    (DamageAmount : ℚ) :
    (ATankBase.TakeDamageVia cls.HandleDestruction w t DamageAmount).2.1.CurrentHealth
      = FMath.Clamp (t.CurrentHealth - w.SuperTakeDamage DamageAmount) 0 t.MaxHealth ∧
    (ATankBase.TakeDamageVia cls.HandleDestruction w t DamageAmount).2.1.MaxHealth
      = t.MaxHealth := by
  unfold ATankBase.TakeDamageVia
  simp only
  split_ifs with h
  · simp [destruction_keeps_health]
  · simp

theorem tank_seq_health (cls : TankClass) (calls : List (World × ℚ)) :
    ∀ t : ATankBase, 0 ≤ t.MaxHealth → 0 ≤ t.CurrentHealth → t.CurrentHealth ≤ t.MaxHealth →
      0 ≤ (ATankBase.TakeDamageSeq cls.HandleDestruction t calls).1.CurrentHealth ∧
      (ATankBase.TakeDamageSeq cls.HandleDestruction t calls).1.CurrentHealth ≤ t.MaxHealth ∧
      (ATankBase.TakeDamageSeq cls.HandleDestruction t calls).1.MaxHealth = t.MaxHealth := by
  induction calls with
  | nil => intro t _ h1 h2; exact ⟨h1, h2, rfl⟩
  | cons c cs ih =>
    intro t hM _ _
    obtain ⟨hc, hm⟩ := tank_step_health cls c.1 t c.2
    have hM1 : 0 ≤ (ATankBase.TakeDamageVia cls.HandleDestruction c.1 t c.2).2.1.MaxHealth := by
      rw [hm]; exact hM
    have step := ih (ATankBase.TakeDamageVia cls.HandleDestruction c.1 t c.2).2.1 hM1
      (by rw [hc]; exact clamp_nonneg _ _ hM)
      (by rw [hc, hm]; exact clamp_le_max _ _ hM)
    rw [hm] at step
    simpa [ATankBase.TakeDamageSeq] using step

theorem obstacle_step_health (w : World) (o : AObstacle) (DamageAmount : ℚ)
    (hM : 0 ≤ o.MaxHealth) (h0 : 0 ≤ o.CurrentHealth) (h1 : o.CurrentHealth ≤ o.MaxHealth) :
    0 ≤ (AObstacle.TakeDamage w o DamageAmount).2.1.CurrentHealth ∧
    (AObstacle.TakeDamage w o DamageAmount).2.1.CurrentHealth ≤ o.MaxHealth ∧
    (AObstacle.TakeDamage w o DamageAmount).2.1.MaxHealth = o.MaxHealth := by
  unfold AObstacle.TakeDamage
  simp only
  split_ifs with hd h
  · exact ⟨h0, h1, rfl⟩
  · exact ⟨clamp_nonneg _ _ hM, clamp_le_max _ _ hM, rfl⟩
  · exact ⟨clamp_nonneg _ _ hM, clamp_le_max _ _ hM, rfl⟩

theorem obstacle_seq_health (calls : List (World × ℚ)) :
    ∀ o : AObstacle, 0 ≤ o.MaxHealth → 0 ≤ o.CurrentHealth → o.CurrentHealth ≤ o.MaxHealth →
      0 ≤ (AObstacle.TakeDamageSeq o calls).1.CurrentHealth ∧
      (AObstacle.TakeDamageSeq o calls).1.CurrentHealth ≤ o.MaxHealth ∧
      (AObstacle.TakeDamageSeq o calls).1.MaxHealth = o.MaxHealth := by
  induction calls with
  | nil => intro o _ h1 h2; exact ⟨h1, h2, rfl⟩
  | cons c cs ih =>
    intro o hM h0 h1
    obtain ⟨a, b, hm⟩ := obstacle_step_health c.1 o c.2 hM h0 h1
    have step := ih (AObstacle.TakeDamage c.1 o c.2).2.1 (by rw [hm]; exact hM) a
      (by rw [hm]; exact b)
    rw [hm] at step
    simpa [AObstacle.TakeDamageSeq] using step

/-- C1 (health clamp). For a tank of any class and for an obstacle with
`MaxHealth > 0` that has been initialised by `BeginPlay`, and for every finite
sequence of `TakeDamage` calls, after every call of the sequence (after the first
`k` calls, for every `k`) the health satisfies `0 ≤ CurrentHealth ≤ MaxHealth`.
The bound needs no condition on the sign of the applied amounts, so it holds in
particular when they are all `≥ 0`. -/
theorem C1_health_clamp (cls : TankClass) (t : ATankBase) (o : AObstacle)
    (ht : 0 < t.MaxHealth) (ho : 0 < o.MaxHealth) (calls : List (World × ℚ)) (k : ℕ) :
    (0 ≤ (ATankBase.TakeDamageSeq cls.HandleDestruction (ATankBase.BeginPlay t)
            (calls.take k)).1.CurrentHealth ∧
      (ATankBase.TakeDamageSeq cls.HandleDestruction (ATankBase.BeginPlay t)
            (calls.take k)).1.CurrentHealth
        ≤ (ATankBase.TakeDamageSeq cls.HandleDestruction (ATankBase.BeginPlay t)
            (calls.take k)).1.MaxHealth) ∧
    (0 ≤ (AObstacle.TakeDamageSeq (AObstacle.BeginPlay o) (calls.take k)).1.CurrentHealth ∧
      (AObstacle.TakeDamageSeq (AObstacle.BeginPlay o) (calls.take k)).1.CurrentHealth
        ≤ (AObstacle.TakeDamageSeq (AObstacle.BeginPlay o) (calls.take k)).1.MaxHealth) := by
  constructor
  · have h := tank_seq_health cls (calls.take k) (ATankBase.BeginPlay t)
      (le_of_lt ht) (le_of_lt ht) (le_refl _)
    exact ⟨h.1, by rw [h.2.2]; exact h.2.1⟩
  · have h := obstacle_seq_health (calls.take k) (AObstacle.BeginPlay o)
      (le_of_lt ho) (le_of_lt ho) (le_refl _)
    exact ⟨h.1, by rw [h.2.2]; exact h.2.1⟩

/-- Witness for C1: an enemy tank with `MaxHealth = 100` and an obstacle with
`MaxHealth = 50` after the two calls `TakeDamage 30`, `TakeDamage 80`. -/
theorem C1_health_clamp_witness :
    (0 < (ATankBase.ctor 2).MaxHealth ∧ 0 < sampleObstacle.MaxHealth) ∧
    ((0 ≤ (ATankBase.TakeDamageSeq TankClass.EnemyTank.HandleDestruction
            (ATankBase.BeginPlay (ATankBase.ctor 2)) (sampleCalls.take 2)).1.CurrentHealth ∧
      (ATankBase.TakeDamageSeq TankClass.EnemyTank.HandleDestruction
            (ATankBase.BeginPlay (ATankBase.ctor 2)) (sampleCalls.take 2)).1.CurrentHealth
        ≤ (ATankBase.TakeDamageSeq TankClass.EnemyTank.HandleDestruction
            (ATankBase.BeginPlay (ATankBase.ctor 2)) (sampleCalls.take 2)).1.MaxHealth) ∧
    (0 ≤ (AObstacle.TakeDamageSeq (AObstacle.BeginPlay sampleObstacle)
            (sampleCalls.take 2)).1.CurrentHealth ∧
      (AObstacle.TakeDamageSeq (AObstacle.BeginPlay sampleObstacle)
            (sampleCalls.take 2)).1.CurrentHealth
        ≤ (AObstacle.TakeDamageSeq (AObstacle.BeginPlay sampleObstacle)
            (sampleCalls.take 2)).1.MaxHealth)) :=
  ⟨⟨by norm_num [ATankBase.ctor], by norm_num [sampleObstacle, AObstacle.BeginPlay]⟩,
   C1_health_clamp TankClass.EnemyTank (ATankBase.ctor 2) sampleObstacle
     (by norm_num [ATankBase.ctor]) (by norm_num [sampleObstacle, AObstacle.BeginPlay])
     sampleCalls 2⟩

/-! ## Damage after destruction -/

theorem clamp_zero_sub (a Max : ℚ) (ha : 0 ≤ a) (hMax : 0 < Max) :
    FMath.Clamp (0 - a) 0 Max = 0 := by
  unfold FMath.Clamp
  split_ifs with h1 h2
  · rfl
  · linarith
  · linarith

theorem destroyedTank_eval :
    destroyedTank.CurrentHealth = 0 ∧ destroyedTank.bIsDestroyed = true ∧
    destroyedTank.MaxHealth = 100 ∧ destroyedTank.LastFireTime = 0 := by
  norm_num [destroyedTank, ATankBase.TakeDamage, ATankBase.TakeDamageVia,
    ATankBase.HandleDestruction, sampleTank, sampleWorld, FMath.Clamp, ATankBase.BeginPlay,
    ATankBase.ctor]

theorem dead_tank_takes_no_damage (cls : TankClass) (w : World) (t : ATankBase)
    (DamageAmount : ℚ) (hMax : 0 < t.MaxHealth) (hzero : t.CurrentHealth = 0)
    (hdead : t.bIsDestroyed = true) (happlied : 0 ≤ w.SuperTakeDamage DamageAmount) :
    ATankBase.TakeDamageVia cls.HandleDestruction w t DamageAmount
      = (w.SuperTakeDamage DamageAmount, t, []) := by
  obtain ⟨self, hasTurret, rot, hasSpawn, Max, cur, ms, tr, trs, fr, pc, lft, dead⟩ := t
  simp only at hMax hzero hdead
  subst hzero hdead
  have hc : FMath.Clamp (-w.SuperTakeDamage DamageAmount) 0 Max = 0 := by
    have := clamp_zero_sub _ _ happlied hMax
    simpa using this
  simp [ATankBase.TakeDamageVia, hc]

/-- C2, the claim as stated fails: `sampleTank` (health `100`) is destroyed by
`TakeDamage 100` (health `0`, `bIsDestroyed = true`); the next call `TakeDamage 25`,
whose applied amount `25` is `≥ 0`, returns `25`, not `0`. -/
theorem C2_counterexample :
    (ATankBase.TakeDamage (sampleWorld 0) sampleTank 100).2.1.CurrentHealth = 0 ∧
    (ATankBase.TakeDamage (sampleWorld 0) sampleTank 100).2.1.bIsDestroyed = true ∧
    (0 : ℚ) ≤ (sampleWorld 1).SuperTakeDamage 25 ∧
    (ATankBase.TakeDamage (sampleWorld 1)
      (ATankBase.TakeDamage (sampleWorld 0) sampleTank 100).2.1 25).1 = 25 ∧
    ¬ (ATankBase.TakeDamage (sampleWorld 1)
      (ATankBase.TakeDamage (sampleWorld 0) sampleTank 100).2.1 25).1 = 0 := by
  norm_num [ATankBase.TakeDamage, ATankBase.TakeDamageVia,
    ATankBase.HandleDestruction, sampleTank, sampleWorld, FMath.Clamp, ATankBase.BeginPlay,
    ATankBase.ctor]

/-- C2 as amended. For a tank of any class with `MaxHealth > 0` whose health has
been driven to `0` and whose destruction has fired (`bIsDestroyed = true`), every
later `TakeDamage` call with applied amount `≥ 0` returns that applied amount (the
result of `Super::TakeDamage`, which need not be `0`), leaves the whole tank state
unchanged (so `CurrentHealth`, `bIsDestroyed` and `LastFireTime` too) and issues no
command, in particular no second destruction. -/
theorem C2_damage_after_destruction (cls : TankClass) (w : World) (t : ATankBase)
    (DamageAmount : ℚ) (hMax : 0 < t.MaxHealth) (hzero : t.CurrentHealth = 0)
    (hdead : t.bIsDestroyed = true) (happlied : 0 ≤ w.SuperTakeDamage DamageAmount) :
    ATankBase.TakeDamageVia cls.HandleDestruction w t DamageAmount
      = (w.SuperTakeDamage DamageAmount, t, []) :=
  dead_tank_takes_no_damage cls w t DamageAmount hMax hzero hdead happlied

/-- Witness for C2 as amended: `destroyedTank` receives `TakeDamage 25` at time `1`. -/
theorem C2_damage_after_destruction_witness :
    (0 < destroyedTank.MaxHealth ∧ destroyedTank.CurrentHealth = 0 ∧
      destroyedTank.bIsDestroyed = true ∧ 0 ≤ (sampleWorld 1).SuperTakeDamage 25) ∧
    ATankBase.TakeDamageVia TankClass.PlayerTank.HandleDestruction (sampleWorld 1)
      destroyedTank 25 = ((sampleWorld 1).SuperTakeDamage 25, destroyedTank, []) :=
  ⟨⟨by norm_num [destroyedTank_eval.2.2.1], destroyedTank_eval.1, destroyedTank_eval.2.1,
    by norm_num [sampleWorld]⟩,
   C2_damage_after_destruction TankClass.PlayerTank (sampleWorld 1) destroyedTank 25
    (by norm_num [destroyedTank_eval.2.2.1]) destroyedTank_eval.1 destroyedTank_eval.2.1
    (by norm_num [sampleWorld])⟩

/-! ## How often destruction fires -/

theorem destruction_sets_latch (cls : TankClass) (w : World) (t : ATankBase) :
    (cls.HandleDestruction w t).1.bIsDestroyed = true ∧
    (cls.HandleDestruction w t).2.countP Event.isSpawnEmitter = 1 := by
  cases cls <;>
    simp [TankClass.HandleDestruction, ATankBase.HandleDestruction,
      APlayerTank.HandleDestruction, AEnemyTank.HandleDestruction, Event.isSpawnEmitter]

theorem tank_step_destruction (cls : TankClass) (w : World) (t : ATankBase) (DamageAmount : ℚ) :
    (t.bIsDestroyed = true →
      (ATankBase.TakeDamageVia cls.HandleDestruction w t DamageAmount).2.1.bIsDestroyed = true ∧
      (ATankBase.TakeDamageVia cls.HandleDestruction w t DamageAmount).2.2 = []) ∧
    (t.bIsDestroyed = false →
      ((ATankBase.TakeDamageVia cls.HandleDestruction w t DamageAmount).2.1.bIsDestroyed = true ∧
        (ATankBase.TakeDamageVia cls.HandleDestruction w t DamageAmount).2.2.countP
          Event.isSpawnEmitter = 1) ∨
      ((ATankBase.TakeDamageVia cls.HandleDestruction w t DamageAmount).2.1.bIsDestroyed = false ∧
        (ATankBase.TakeDamageVia cls.HandleDestruction w t DamageAmount).2.2 = [])) := by
  constructor
  · intro hd
    unfold ATankBase.TakeDamageVia
    simp [hd]
  · intro hd
    unfold ATankBase.TakeDamageVia
    simp only
    split_ifs with h
    · left
      exact destruction_sets_latch cls w _
    · right
      simp [hd]

theorem tank_seq_latch (cls : TankClass) (calls : List (World × ℚ)) :
    ∀ t : ATankBase, t.bIsDestroyed = true →
      (ATankBase.TakeDamageSeq cls.HandleDestruction t calls).1.bIsDestroyed = true ∧
      (ATankBase.TakeDamageSeq cls.HandleDestruction t calls).2 = [] := by
  induction calls with
  | nil => intro t hd; exact ⟨hd, rfl⟩
  | cons c cs ih =>
    intro t hd
    obtain ⟨h1, h2⟩ := (tank_step_destruction cls c.1 t c.2).1 hd
    obtain ⟨h3, h4⟩ := ih _ h1
    simp [ATankBase.TakeDamageSeq, h2, h3, h4]

/-- For a tank of any class and any sequence of `TakeDamage` calls, the explosion
effect of `HandleDestruction` is issued once if the sequence takes the tank from
not destroyed to destroyed, and not at all otherwise: the guard `!bIsDestroyed`
keeps a later call from firing destruction again. -/
theorem tank_destruction_fires_once (cls : TankClass) (calls : List (World × ℚ)) :
    ∀ t : ATankBase,
      (ATankBase.TakeDamageSeq cls.HandleDestruction t calls).2.countP Event.isSpawnEmitter
        = if t.bIsDestroyed = false ∧
            (ATankBase.TakeDamageSeq cls.HandleDestruction t calls).1.bIsDestroyed = true
          then 1 else 0 := by
  induction calls with
  | nil =>
    intro t
    cases hd : t.bIsDestroyed <;> simp [ATankBase.TakeDamageSeq, hd]
  | cons c cs ih =>
    intro t
    cases hd : t.bIsDestroyed
    · rcases (tank_step_destruction cls c.1 t c.2).2 hd with ⟨h1, h2⟩ | ⟨h1, h2⟩
      · obtain ⟨h3, h4⟩ := tank_seq_latch cls cs _ h1
        simp [ATankBase.TakeDamageSeq, h2, h3, h4]
      · have h5 := ih (ATankBase.TakeDamageVia cls.HandleDestruction c.1 t c.2).2.1
        simp only [h1, true_and] at h5
        simp [ATankBase.TakeDamageSeq, h2, h5]
    · obtain ⟨h3, h4⟩ := tank_seq_latch cls (c :: cs) t hd
      simp [h4]

/-- C3, evaluation at the failing input. The obstacle `sampleObstacle` (health `50`)
receives `TakeDamage 50` and then `TakeDamage 10`. The first call drives the health
to `0` and runs `DestroyObstacle`; the second call runs `DestroyObstacle` again, so
the effects and the request `Destroy` on actor `3` are issued twice. An enemy tank
(health `100`) that receives `TakeDamage 100` and then `TakeDamage 10` runs its
destruction, with `Destroy` on actor `2`, once. -/
theorem C3_obstacle_destroyed_twice :
    (AObstacle.TakeDamage (sampleWorld 0) sampleObstacle 50).2.1.CurrentHealth = 0 ∧
    (AObstacle.TakeDamageSeq sampleObstacle [(sampleWorld 0, 50), (sampleWorld 1, 10)]).2
      = [Event.SpawnEmitterAtLocation FVector.ZeroVector,
         Event.PlaySoundAtLocation FVector.ZeroVector, Event.Destroy 3,
         Event.SpawnEmitterAtLocation FVector.ZeroVector,
         Event.PlaySoundAtLocation FVector.ZeroVector, Event.Destroy 3] ∧
    (ATankBase.TakeDamageSeq TankClass.EnemyTank.HandleDestruction sampleTank
        [(sampleWorld 0, 100), (sampleWorld 1, 10)]).2
      = [Event.SetActorHiddenInGame true, Event.SetActorTickEnabled false,
         Event.SpawnEmitterAtLocation FVector.ZeroVector, Event.ClearTimer,
         Event.Destroy 2] := by
  norm_num [AObstacle.TakeDamageSeq, AObstacle.TakeDamage, AObstacle.DestroyObstacle,
    sampleObstacle, AObstacle.BeginPlay, sampleWorld, FMath.Clamp,
    ATankBase.TakeDamageSeq, ATankBase.TakeDamageVia, TankClass.HandleDestruction,
    AEnemyTank.HandleDestruction, ATankBase.HandleDestruction, sampleTank,
    ATankBase.BeginPlay, ATankBase.ctor]

/-! ## Fire control -/

theorem sampleTank_eval :
    sampleTank.bIsDestroyed = false ∧ sampleTank.LastFireTime = 0 ∧ sampleTank.FireRate = 2 ∧
    sampleTank.ProjectileClass = true ∧ sampleTank.ProjectileSpawnPoint = true ∧
    sampleTank.self = 2 := by
  norm_num [sampleTank, ATankBase.BeginPlay, ATankBase.ctor]

/-- C4, the claim as stated fails: for the tank `sampleTank` in its initial state
(not destroyed, `LastFireTime = 0`, `FireRate = 2`, projectile class and spawn point
present) in a world where every spawn succeeds, `Fire` at time `0.0` requests no
spawn and leaves the tank as it was: the elapsed time `0.0 - 0.0` is below
`1 / FireRate = 0.5`. -/
theorem C4_counterexample :
    sampleTank.bIsDestroyed = false ∧ sampleTank.LastFireTime = 0 ∧ sampleTank.FireRate = 2 ∧
    sampleTank.ProjectileClass = true ∧ sampleTank.ProjectileSpawnPoint = true ∧
    (sampleWorld 0.0).SpawnActor ((sampleWorld 0.0).SpawnPointLocation sampleTank.self)
      ((sampleWorld 0.0).SpawnPointRotation sampleTank.self) = some 900 ∧
    ATankBase.Fire (sampleWorld 0.0) sampleTank = (sampleTank, []) := by
  norm_num [ATankBase.Fire, sampleTank, ATankBase.BeginPlay, ATankBase.ctor, sampleWorld]

/-- C4 as amended. For a tank in its initial state (not destroyed,
`LastFireTime = 0`) with `FireRate = 2`, a projectile class and a spawn point
present and every spawn request succeeding: `Fire` at time `0.0` spawns nothing
and changes nothing (the elapsed time `0.0` is below `1 / FireRate = 0.5`), `Fire`
again at time `0.4` spawns nothing and changes nothing, and `Fire` at time `0.5`
succeeds: one spawn is requested, the projectile's owner is set to the tank and
`LastFireTime` becomes `0.5`. -/
theorem C4_fire_rate_scenario (t : ATankBase) (w0 w1 w2 : World)
    (hlive : t.bIsDestroyed = false) (hlast : t.LastFireTime = 0) (hrate : t.FireRate = 2)
    (hclass : t.ProjectileClass = true) (hpoint : t.ProjectileSpawnPoint = true)
    (hspawn : ∀ w ∈ [w0, w1, w2], ∀ l r, ∃ Projectile, w.SpawnActor l r = some Projectile)
    (h0 : w0.TimeSeconds = 0.0) (h1 : w1.TimeSeconds = 0.4) (h2 : w2.TimeSeconds = 0.5) :
    ATankBase.Fire w0 t = (t, []) ∧
    ATankBase.Fire w1 (ATankBase.Fire w0 t).1 = (t, []) ∧
    (∃ Projectile,
      ATankBase.Fire w2 (ATankBase.Fire w1 (ATankBase.Fire w0 t).1).1
        = ({ t with LastFireTime := 0.5 },
           [Event.SpawnActor (w2.SpawnPointLocation t.self) (w2.SpawnPointRotation t.self),
            Event.SetOwner Projectile t.self])) := by
  have e0 : ATankBase.Fire w0 t = (t, []) := by
    norm_num [ATankBase.Fire, hlive, hlast, hrate, h0]
  have e1 : ATankBase.Fire w1 t = (t, []) := by
    norm_num [ATankBase.Fire, hlive, hlast, hrate, h1]
  obtain ⟨P, hP⟩ := hspawn w2 (by simp) (w2.SpawnPointLocation t.self)
    (w2.SpawnPointRotation t.self)
  refine ⟨e0, by rw [e0]; exact e1, P, ?_⟩
  rw [e0, e1]
  norm_num [ATankBase.Fire, hlive, hlast, hrate, hclass, hpoint, h2, hP]

/-- Witness for C4 as amended: `sampleTank` fired at times `0.0`, `0.4`, `0.5`. -/
theorem C4_fire_rate_scenario_witness :
    ATankBase.Fire (sampleWorld 0.0) sampleTank = (sampleTank, []) ∧
    ATankBase.Fire (sampleWorld 0.4) (ATankBase.Fire (sampleWorld 0.0) sampleTank).1
      = (sampleTank, []) ∧
    (∃ Projectile,
      ATankBase.Fire (sampleWorld 0.5)
          (ATankBase.Fire (sampleWorld 0.4) (ATankBase.Fire (sampleWorld 0.0) sampleTank).1).1
        = ({ sampleTank with LastFireTime := 0.5 },
           [Event.SpawnActor ((sampleWorld 0.5).SpawnPointLocation sampleTank.self)
              ((sampleWorld 0.5).SpawnPointRotation sampleTank.self),
            Event.SetOwner Projectile sampleTank.self])) :=
  C4_fire_rate_scenario sampleTank (sampleWorld 0.0) (sampleWorld 0.4) (sampleWorld 0.5)
    sampleTank_eval.1 sampleTank_eval.2.1 sampleTank_eval.2.2.1 sampleTank_eval.2.2.2.1
    sampleTank_eval.2.2.2.2.1
    (by
      intro w hw l r
      simp only [List.mem_cons, List.mem_singleton, List.not_mem_nil, or_false] at hw
      rcases hw with rfl | rfl | rfl <;> exact ⟨900, rfl⟩)
    (by norm_num [sampleWorld]) (by norm_num [sampleWorld]) (by norm_num [sampleWorld])

theorem fire_cases (w : World) (t : ATankBase) :
    (¬ (t.bIsDestroyed = false ∧ w.TimeSeconds - t.LastFireTime ≥ 1 / t.FireRate ∧
        t.ProjectileClass = true ∧ t.ProjectileSpawnPoint = true) →
      ATankBase.Fire w t = (t, [])) ∧
    ((t.bIsDestroyed = false ∧ w.TimeSeconds - t.LastFireTime ≥ 1 / t.FireRate ∧
        t.ProjectileClass = true ∧ t.ProjectileSpawnPoint = true) →
      (∀ Projectile,
        w.SpawnActor (w.SpawnPointLocation t.self) (w.SpawnPointRotation t.self)
            = some Projectile →
        ATankBase.Fire w t
          = ({ t with LastFireTime := w.TimeSeconds },
             [Event.SpawnActor (w.SpawnPointLocation t.self) (w.SpawnPointRotation t.self),
              Event.SetOwner Projectile t.self])) ∧
      (w.SpawnActor (w.SpawnPointLocation t.self) (w.SpawnPointRotation t.self) = none →
        ATankBase.Fire w t
          = (t, [Event.SpawnActor (w.SpawnPointLocation t.self)
                  (w.SpawnPointRotation t.self)]))) := by
  constructor
  · intro h
    unfold ATankBase.Fire
    cases hd : t.bIsDestroyed
    · simp only [hd, Bool.false_eq_true, if_false]
      split_ifs with h1 h2
      · rfl
      · exfalso
        apply h
        simp only [Bool.and_eq_true] at h2
        exact ⟨hd, not_lt.mp h1, h2.1, h2.2⟩
      · rfl
    · simp
  · rintro ⟨hd, hg, hc, hp⟩
    have hg2 : ¬ (w.TimeSeconds - t.LastFireTime < 1 / t.FireRate) := not_lt.mpr hg
    constructor
    · intro P hP
      unfold ATankBase.Fire
      simp only [hd, Bool.false_eq_true, if_false, if_neg hg2, hc, hp, Bool.and_self, if_true, hP]
    · intro hN
      unfold ATankBase.Fire
      simp only [hd, Bool.false_eq_true, if_false, if_neg hg2, hc, hp, Bool.and_self, if_true, hN]

/-! ## Fire gate in binary32 -/

theorem roundHalfEven_bounds (q : ℚ) :
    ⌊q⌋ ≤ roundHalfEven q ∧ roundHalfEven q ≤ ⌊q⌋ + 1 := by
  unfold roundHalfEven
  split_ifs <;> constructor <;> omega

theorem roundHalfEven_intCast (n : ℤ) : roundHalfEven (n : ℚ) = n := by
  unfold roundHalfEven
  simp

theorem roundHalfEven_mono {q r : ℚ} (h : q ≤ r) : roundHalfEven q ≤ roundHalfEven r := by
  have hfl : ⌊q⌋ ≤ ⌊r⌋ := Int.floor_le_floor h
  rcases lt_or_eq_of_le hfl with hlt | heq
  · have h1 := (roundHalfEven_bounds q).2
    have h2 := (roundHalfEven_bounds r).1
    omega
  · unfold roundHalfEven
    rw [← heq]
    have hfrac : q - ⌊q⌋ ≤ r - ⌊q⌋ := by linarith
    split_ifs <;> first | omega | (exfalso; linarith)

theorem ulp_pos (x : ℚ) : 0 < Binary32.ulp x := by
  unfold Binary32.ulp
  exact zpow_pos (by norm_num) _

theorem exponent_ge (x : ℚ) : -126 ≤ Binary32.exponent x := by
  unfold Binary32.exponent
  split_ifs
  · exact le_refl _
  · exact le_max_right _ _

theorem abs_lt_pow_exponent (x : ℚ) : |x| < 2 ^ (Binary32.exponent x + 1) := by
  unfold Binary32.exponent
  split_ifs with h
  · rw [h]; simp; exact zpow_pos (by norm_num) _
  · have h1 : |x| < ((2 : ℕ) : ℚ) ^ (Int.log 2 |x| + 1) :=
      Int.lt_zpow_succ_log_self (by norm_num) |x|
    have h2 : ((2 : ℕ) : ℚ) ^ (Int.log 2 |x| + 1) ≤ 2 ^ (max (Int.log 2 |x|) (-126) + 1) := by
      rw [Nat.cast_ofNat]
      exact zpow_le_zpow_right₀ (by norm_num) (by
        have := le_max_left (Int.log 2 |x|) (-126)
        omega)
    exact lt_of_lt_of_le h1 h2

theorem pow_exponent_le_abs (x : ℚ) (h : -126 < Binary32.exponent x) :
    2 ^ Binary32.exponent x ≤ |x| := by
  unfold Binary32.exponent at h ⊢
  split_ifs at h ⊢ with h0
  · omega
  · have hpos : 0 < |x| := abs_pos.mpr h0
    have hmax : max (Int.log 2 |x|) (-126) = Int.log 2 |x| := by
      rcases le_total (Int.log 2 |x|) (-126) with hl | hl
      · rw [max_eq_right hl] at h; omega
      · exact max_eq_left hl
    rw [hmax]
    have := Int.zpow_log_le_self (b := 2) (by norm_num) hpos
    rwa [Nat.cast_ofNat] at this

theorem grid_le (u : ℚ) (hu : 0 < u) (k : ℤ) (x : ℚ) (h : x ≤ k * u) :
    (roundHalfEven (x / u) : ℚ) * u ≤ k * u := by
  have h1 : x / u ≤ k := by rwa [div_le_iff₀ hu]
  have h2 := roundHalfEven_mono h1
  rw [roundHalfEven_intCast] at h2
  have h3 : (roundHalfEven (x / u) : ℚ) ≤ k := by exact_mod_cast h2
  exact mul_le_mul_of_nonneg_right h3 (le_of_lt hu)

theorem grid_ge (u : ℚ) (hu : 0 < u) (k : ℤ) (x : ℚ) (h : (k : ℚ) * u ≤ x) :
    (k : ℚ) * u ≤ (roundHalfEven (x / u) : ℚ) * u := by
  have h1 : (k : ℚ) ≤ x / u := by rwa [le_div_iff₀ hu]
  have h2 := roundHalfEven_mono h1
  rw [roundHalfEven_intCast] at h2
  have h3 : (k : ℚ) ≤ (roundHalfEven (x / u) : ℚ) := by exact_mod_cast h2
  exact mul_le_mul_of_nonneg_right h3 (le_of_lt hu)

/-- A power of two `2 ^ a` is an integer multiple of `2 ^ b` when `b ≤ a`. -/
theorem pow_two_on_grid (a b : ℤ) (h : b ≤ a) :
    ∃ k : ℤ, (2 : ℚ) ^ a = (k : ℚ) * 2 ^ b := by
  refine ⟨2 ^ (a - b).toNat, ?_⟩
  have h1 : ((a - b).toNat : ℤ) = a - b := Int.toNat_of_nonneg (by omega)
  have h2 : (((2 : ℤ) ^ (a - b).toNat : ℤ) : ℚ) = (2 : ℚ) ^ (a - b) := by
    push_cast
    rw [← zpow_natCast, h1]
  rw [h2, ← zpow_add₀ (by norm_num : (2 : ℚ) ≠ 0)]
  congr 1
  omega

theorem nearest_mono {x y : ℚ} (h : x ≤ y) : Binary32.nearest x ≤ Binary32.nearest y := by
  rcases lt_trichotomy (Binary32.exponent x) (Binary32.exponent y) with he | he | he
  · -- `x` lies below the power of two that opens the binade of `y`
    have hy : (2 : ℚ) ^ Binary32.exponent y ≤ |y| :=
      pow_exponent_le_abs y (lt_of_le_of_lt (exponent_ge x) he)
    have hx : |x| < 2 ^ Binary32.exponent y :=
      lt_of_lt_of_le (abs_lt_pow_exponent x)
        (zpow_le_zpow_right₀ (by norm_num) (by omega))
    have hypos : 0 < y := by
      by_contra hneg
      have hy0 : y ≤ 0 := not_lt.mp hneg
      have : |y| ≤ |x| := by
        rw [abs_of_nonpos hy0, abs_of_nonpos (le_trans h hy0)]
        linarith
      linarith
    have hyG : (2 : ℚ) ^ Binary32.exponent y ≤ y := by rwa [abs_of_pos hypos] at hy
    have hxG : x ≤ (2 : ℚ) ^ Binary32.exponent y := le_trans (le_abs_self x) (le_of_lt hx)
    obtain ⟨k, hk⟩ := pow_two_on_grid (Binary32.exponent y) (Binary32.exponent x - 23)
      (by omega)
    obtain ⟨m, hm⟩ := pow_two_on_grid (Binary32.exponent y) (Binary32.exponent y - 23)
      (by omega)
    have h1 := grid_le (Binary32.ulp x) (ulp_pos x) k x (by
      unfold Binary32.ulp; rw [← hk]; exact hxG)
    have h2 := grid_ge (Binary32.ulp y) (ulp_pos y) m y (by
      unfold Binary32.ulp; rw [← hm]; exact hyG)
    unfold Binary32.nearest
    calc (roundHalfEven (x / Binary32.ulp x) : ℚ) * Binary32.ulp x
        ≤ k * Binary32.ulp x := h1
      _ = 2 ^ Binary32.exponent y := by unfold Binary32.ulp; rw [hk]
      _ = m * Binary32.ulp y := by unfold Binary32.ulp; rw [hm]
      _ ≤ (roundHalfEven (y / Binary32.ulp y) : ℚ) * Binary32.ulp y := h2
  · -- same spacing
    unfold Binary32.nearest Binary32.ulp
    rw [he]
    have hu : (0 : ℚ) < 2 ^ (Binary32.exponent y - 23) := zpow_pos (by norm_num) _
    have hq : x / 2 ^ (Binary32.exponent y - 23) ≤ y / 2 ^ (Binary32.exponent y - 23) :=
      div_le_div_of_nonneg_right h (le_of_lt hu)
    have := roundHalfEven_mono hq
    exact mul_le_mul_of_nonneg_right (by exact_mod_cast this) (le_of_lt hu)
  · -- `y` lies above minus the power of two that opens the binade of `x`
    have hx : (2 : ℚ) ^ Binary32.exponent x ≤ |x| :=
      pow_exponent_le_abs x (lt_of_le_of_lt (exponent_ge y) he)
    have hy : |y| < 2 ^ Binary32.exponent x :=
      lt_of_lt_of_le (abs_lt_pow_exponent y)
        (zpow_le_zpow_right₀ (by norm_num) (by omega))
    have hxneg : x < 0 := by
      by_contra hpos
      have hx0 : 0 ≤ x := not_lt.mp hpos
      have : |x| ≤ |y| := by
        rw [abs_of_nonneg hx0, abs_of_nonneg (le_trans hx0 h)]
        exact h
      linarith
    have hxG : x ≤ -(2 : ℚ) ^ Binary32.exponent x := by
      rw [abs_of_neg hxneg] at hx; linarith
    have hyG : -(2 : ℚ) ^ Binary32.exponent x ≤ y := by
      have := neg_abs_le y
      linarith
    obtain ⟨k, hk⟩ := pow_two_on_grid (Binary32.exponent x) (Binary32.exponent x - 23)
      (by omega)
    obtain ⟨m, hm⟩ := pow_two_on_grid (Binary32.exponent x) (Binary32.exponent y - 23)
      (by omega)
    have h1 := grid_le (Binary32.ulp x) (ulp_pos x) (-k) x (by
      unfold Binary32.ulp; push_cast; rw [neg_mul, ← hk]; exact hxG)
    have h2 := grid_ge (Binary32.ulp y) (ulp_pos y) (-m) y (by
      unfold Binary32.ulp; push_cast; rw [neg_mul, ← hm]; exact hyG)
    unfold Binary32.nearest
    calc (roundHalfEven (x / Binary32.ulp x) : ℚ) * Binary32.ulp x
        ≤ ((-k : ℤ) : ℚ) * Binary32.ulp x := h1
      _ = -(2 : ℚ) ^ Binary32.exponent x := by
          unfold Binary32.ulp; push_cast; rw [neg_mul, ← hk]
      _ = ((-m : ℤ) : ℚ) * Binary32.ulp y := by
          unfold Binary32.ulp; push_cast; rw [neg_mul, ← hm]
      _ ≤ (roundHalfEven (y / Binary32.ulp y) : ℚ) * Binary32.ulp y := h2

theorem binary32_lt_false_iff (a b : Binary32) :
    Binary32.lt a b = false ↔ Binary32.ge a b = true := by
  cases a <;> cases b <;> simp [Binary32.lt, Binary32.ge]

theorem binary32_ge_trans (a b c : Binary32) (h1 : Binary32.ge a b = true)
    (h2 : Binary32.ge b c = true) : Binary32.ge a c = true := by
  cases a <;> cases b <;> cases c <;> simp_all [Binary32.ge]
  exact le_trans h2 h1

theorem maxFinite_pos : 0 < Binary32.maxFinite := by
  unfold Binary32.maxFinite
  norm_num

theorem round_mono {x y : ℚ} (h : x ≤ y) :
    Binary32.ge (Binary32.round y) (Binary32.round x) = true := by
  have hn := nearest_mono h
  have hpos := maxFinite_pos
  unfold Binary32.round
  split_ifs <;> simp [Binary32.ge] <;> linarith

theorem sub_mono (a b c : ℚ) (h : a ≤ b) :
    Binary32.ge (Binary32.sub b c) (Binary32.sub a c) = true :=
  round_mono (by linarith)

theorem fireBinary32_cases (w : World) (t : ATankBase) :
    (¬ (t.bIsDestroyed = false ∧
        Binary32.ge (Binary32.sub w.TimeSeconds t.LastFireTime) (Binary32.oneDiv t.FireRate)
          = true ∧
        t.ProjectileClass = true ∧ t.ProjectileSpawnPoint = true) →
      ATankBase.FireBinary32 w t = (t, [])) ∧
    ((t.bIsDestroyed = false ∧
        Binary32.ge (Binary32.sub w.TimeSeconds t.LastFireTime) (Binary32.oneDiv t.FireRate)
          = true ∧
        t.ProjectileClass = true ∧ t.ProjectileSpawnPoint = true) →
      (∀ Projectile,
        w.SpawnActor (w.SpawnPointLocation t.self) (w.SpawnPointRotation t.self)
            = some Projectile →
        ATankBase.FireBinary32 w t
          = ({ t with LastFireTime := w.TimeSeconds },
             [Event.SpawnActor (w.SpawnPointLocation t.self) (w.SpawnPointRotation t.self),
              Event.SetOwner Projectile t.self])) ∧
      (w.SpawnActor (w.SpawnPointLocation t.self) (w.SpawnPointRotation t.self) = none →
        ATankBase.FireBinary32 w t
          = (t, [Event.SpawnActor (w.SpawnPointLocation t.self)
                  (w.SpawnPointRotation t.self)]))) := by
  constructor
  · intro h
    unfold ATankBase.FireBinary32
    cases hd : t.bIsDestroyed
    · simp only [hd, Bool.false_eq_true, if_false]
      split_ifs with h1 h2
      · rfl
      · exfalso
        apply h
        simp only [Bool.and_eq_true] at h2
        have h3 : Binary32.lt (Binary32.sub w.TimeSeconds t.LastFireTime)
            (Binary32.oneDiv t.FireRate) = false := by
          simpa using h1
        exact ⟨hd, (binary32_lt_false_iff _ _).1 h3, h2.1, h2.2⟩
      · rfl
    · simp
  · rintro ⟨hd, hg, hc, hp⟩
    have hg2 : Binary32.lt (Binary32.sub w.TimeSeconds t.LastFireTime)
        (Binary32.oneDiv t.FireRate) = false := (binary32_lt_false_iff _ _).2 hg
    constructor
    · intro P hP
      unfold ATankBase.FireBinary32
      simp only [hd, Bool.false_eq_true, if_false, hg2, hc, hp, Bool.and_self, if_true, hP]
    · intro hN
      unfold ATankBase.FireBinary32
      simp only [hd, Bool.false_eq_true, if_false, hg2, hc, hp, Bool.and_self, if_true, hN]

theorem exponent_eq (x : ℚ) (e : ℤ) (he : -126 ≤ e) (hlo : (2 : ℚ) ^ e ≤ |x|)
    (hhi : |x| < 2 ^ (e + 1)) : Binary32.exponent x = e := by
  have hpos : 0 < |x| := lt_of_lt_of_le (zpow_pos (by norm_num) _) hlo
  have hx : x ≠ 0 := abs_pos.mp hpos
  have h1 : e ≤ Int.log 2 |x| := by
    rw [← Int.zpow_le_iff_le_log (by norm_num) hpos, Nat.cast_ofNat]
    exact hlo
  have h2 : Int.log 2 |x| < e + 1 := by
    rw [← Int.lt_zpow_iff_log_lt (by norm_num) hpos, Nat.cast_ofNat]
    exact hhi
  unfold Binary32.exponent
  rw [if_neg hx, max_eq_left (by omega)]
  omega

theorem roundHalfEven_eq (q : ℚ) (n : ℤ) (h1 : (n : ℚ) - 1 / 2 < q) (h2 : q < n + 1 / 2) :
    roundHalfEven q = n := by
  rcases le_or_lt (n : ℚ) q with hq | hq
  · have hf : ⌊q⌋ = n := by
      rw [Int.floor_eq_iff]
      constructor
      · exact hq
      · linarith
    unfold roundHalfEven
    rw [hf, if_pos (by linarith)]
  · have hf : ⌊q⌋ = n - 1 := by
      rw [Int.floor_eq_iff]
      push_cast
      constructor
      · linarith
      · linarith
    unfold roundHalfEven
    rw [hf]
    push_cast
    rw [if_neg (by linarith), if_pos (by linarith)]
    omega

theorem round_eq_finite (x : ℚ) (e n : ℤ) (he : -126 ≤ e) (hlo : (2 : ℚ) ^ e ≤ |x|)
    (hhi : |x| < 2 ^ (e + 1)) (hn1 : (n : ℚ) - 1 / 2 < x / 2 ^ (e - 23))
    (hn2 : x / 2 ^ (e - 23) < n + 1 / 2)
    (hmax : |(n : ℚ) * 2 ^ (e - 23)| ≤ Binary32.maxFinite) :
    Binary32.round x = Binary32.finite ((n : ℚ) * 2 ^ (e - 23)) := by
  have hnear : Binary32.nearest x = (n : ℚ) * 2 ^ (e - 23) := by
    unfold Binary32.nearest Binary32.ulp
    rw [exponent_eq x e he hlo hhi, roundHalfEven_eq _ n hn1 hn2]
  have hb := abs_le.mp hmax
  unfold Binary32.round
  rw [hnear, if_neg (not_lt.mpr hb.2), if_neg (not_lt.mpr hb.1)]

theorem round_half : Binary32.round (1 / 2) = Binary32.finite (1 / 2) := by
  have h := round_eq_finite (1 / 2) (-1) 8388608 (by norm_num) (by norm_num [abs_of_pos])
    (by norm_num [abs_of_pos]) (by norm_num) (by norm_num)
    (by norm_num [Binary32.maxFinite, abs_of_pos])
  rw [h]
  norm_num

theorem round_twentyfifth :
    Binary32.round (1 / 25) = Binary32.finite (5368709 / 134217728) := by
  have h := round_eq_finite (1 / 25) (-5) 10737418 (by norm_num) (by norm_num [abs_of_pos])
    (by norm_num [abs_of_pos]) (by norm_num) (by norm_num)
    (by norm_num [Binary32.maxFinite, abs_of_pos])
  rw [h]
  norm_num

theorem round_twentyfifth_value :
    Binary32.round (5368709 / 134217728) = Binary32.finite (5368709 / 134217728) := by
  have h := round_eq_finite (5368709 / 134217728) (-5) 10737418 (by norm_num)
    (by norm_num [abs_of_pos]) (by norm_num [abs_of_pos]) (by norm_num) (by norm_num)
    (by norm_num [Binary32.maxFinite, abs_of_pos])
  rw [h]
  norm_num

/-- The binary32 body and the exact-arithmetic body of `Fire` agree whenever the
rounded comparison of the gate decides as the exact one. -/
theorem fireBinary32_eq_fire (w : World) (t : ATankBase)
    (h : Binary32.lt (Binary32.sub w.TimeSeconds t.LastFireTime) (Binary32.oneDiv t.FireRate)
        = true ↔ w.TimeSeconds - t.LastFireTime < 1 / t.FireRate) :
    ATankBase.FireBinary32 w t = ATankBase.Fire w t := by
  unfold ATankBase.FireBinary32 ATankBase.Fire
  by_cases hg : w.TimeSeconds - t.LastFireTime < 1 / t.FireRate
  · simp only [h.2 hg, hg, if_true]
  · have hb : Binary32.lt (Binary32.sub w.TimeSeconds t.LastFireTime)
        (Binary32.oneDiv t.FireRate) = false := by
      cases hlt : Binary32.lt (Binary32.sub w.TimeSeconds t.LastFireTime)
        (Binary32.oneDiv t.FireRate)
      · rfl
      · exact absurd (h.1 hlt) hg
    simp only [hb, hg, if_false, Bool.false_eq_true]

/-- C5 (fire gate and retry policy). The program evaluates the gate in binary32,
and so does `ATankBase.FireBinary32`; `-`, `/` and `≥` below are the binary32
operations. For every tank state with `FireRate > 0` and every world time `now`:
`Fire` requests a projectile spawn if and only if the tank is not destroyed,
`now - LastFireTime ≥ 1 / FireRate`, and a projectile class and a spawn point are
present. When the spawn is requested and returns a projectile, `LastFireTime`
becomes `now`, the projectile's owner is set to the firing tank and nothing else
changes. When the spawn is requested and returns none, the tank state (so
`LastFireTime`) is unchanged, and a `Fire` call at the same or any later time
requests a spawn again. -/
theorem C5_fire_gate_and_retry (w : World) (t : ATankBase) (_hrate : 0 < t.FireRate) :
    ((∃ l r, Event.SpawnActor l r ∈ (ATankBase.FireBinary32 w t).2) ↔
      (t.bIsDestroyed = false ∧
        Binary32.ge (Binary32.sub w.TimeSeconds t.LastFireTime) (Binary32.oneDiv t.FireRate)
          = true ∧
        t.ProjectileClass = true ∧ t.ProjectileSpawnPoint = true)) ∧
    (∀ Projectile, (∃ l r, Event.SpawnActor l r ∈ (ATankBase.FireBinary32 w t).2) →
      w.SpawnActor (w.SpawnPointLocation t.self) (w.SpawnPointRotation t.self)
          = some Projectile →
      (ATankBase.FireBinary32 w t).1 = { t with LastFireTime := w.TimeSeconds } ∧
      Event.SetOwner Projectile t.self ∈ (ATankBase.FireBinary32 w t).2) ∧
    ((∃ l r, Event.SpawnActor l r ∈ (ATankBase.FireBinary32 w t).2) →
      w.SpawnActor (w.SpawnPointLocation t.self) (w.SpawnPointRotation t.self) = none →
      (ATankBase.FireBinary32 w t).1 = t ∧
      ∀ w2 : World, w.TimeSeconds ≤ w2.TimeSeconds →
        ∃ l r, Event.SpawnActor l r
          ∈ (ATankBase.FireBinary32 w2 (ATankBase.FireBinary32 w t).1).2) := by
  have key : ∀ (w : World) (t : ATankBase),
      (∃ l r, Event.SpawnActor l r ∈ (ATankBase.FireBinary32 w t).2) ↔
      (t.bIsDestroyed = false ∧
        Binary32.ge (Binary32.sub w.TimeSeconds t.LastFireTime) (Binary32.oneDiv t.FireRate)
          = true ∧
        t.ProjectileClass = true ∧ t.ProjectileSpawnPoint = true) := by
    intro w t
    constructor
    · intro h
      by_contra hn
      rw [(fireBinary32_cases w t).1 hn] at h
      simp at h
    · intro hg
      cases hs : w.SpawnActor (w.SpawnPointLocation t.self) (w.SpawnPointRotation t.self) with
      | none =>
        rw [((fireBinary32_cases w t).2 hg).2 hs]
        exact ⟨w.SpawnPointLocation t.self, w.SpawnPointRotation t.self, by simp⟩
      | some P =>
        rw [((fireBinary32_cases w t).2 hg).1 P hs]
        exact ⟨w.SpawnPointLocation t.self, w.SpawnPointRotation t.self, by simp⟩
  refine ⟨key w t, ?_, ?_⟩
  · intro P hreq hP
    rw [((fireBinary32_cases w t).2 ((key w t).1 hreq)).1 P hP]
    simp
  · intro hreq hN
    have hg := (key w t).1 hreq
    rw [((fireBinary32_cases w t).2 hg).2 hN]
    refine ⟨rfl, ?_⟩
    intro w2 hle
    apply (key w2 t).2
    exact ⟨hg.1,
      binary32_ge_trans _ _ _ (sub_mono w.TimeSeconds w2.TimeSeconds t.LastFireTime hle) hg.2.1,
      hg.2.2⟩

/-- At the rounding boundary the binary32 gate and the exact one differ: for
`FireRate = 25`, `LastFireTime = 0` and the time `1.0f / 25.0f =
5368709 / 134217728`, which is below `1 / 25`, the rounded quotient equals the
elapsed time, the gate is open and the program spawns; the exact-arithmetic body
`ATankBase.Fire` does not. -/
theorem binary32_gate_boundary :
    (5368709 / 134217728 : ℚ) - 0 < 1 / 25 ∧
    Binary32.sub (5368709 / 134217728) 0 = Binary32.finite (5368709 / 134217728) ∧
    Binary32.oneDiv 25 = Binary32.finite (5368709 / 134217728) ∧
    (ATankBase.FireBinary32 (sampleWorld (5368709 / 134217728))
        { sampleTank with FireRate := 25 }).2
      = [Event.SpawnActor FVector.ZeroVector FRotator.ZeroRotator, Event.SetOwner 900 2] ∧
    (ATankBase.Fire (sampleWorld (5368709 / 134217728)) { sampleTank with FireRate := 25 }).2
      = [] := by
  have hsub : Binary32.sub (5368709 / 134217728) 0
      = Binary32.finite (5368709 / 134217728) := by
    unfold Binary32.sub
    rw [sub_zero]
    exact round_twentyfifth_value
  have hdiv : Binary32.oneDiv 25 = Binary32.finite (5368709 / 134217728) := by
    unfold Binary32.oneDiv
    rw [if_neg (by norm_num)]
    exact round_twentyfifth
  refine ⟨by norm_num, hsub, hdiv, ?_, ?_⟩
  · simp [ATankBase.FireBinary32, sampleTank, ATankBase.BeginPlay, ATankBase.ctor,
      sampleWorld, hsub, hdiv, Binary32.lt, FVector.ZeroVector, FRotator.ZeroRotator]
  · norm_num [ATankBase.Fire, sampleTank, ATankBase.BeginPlay, ATankBase.ctor, sampleWorld]

/-- Witness for C5: `sampleTank` (`FireRate = 2`) at time `0.5`, once in a world
where the spawn returns projectile `900` and once in a world where the spawn fails,
followed by a retry at time `0.75`; and a tank with `FireRate = 25` at the time
`1.0f / 25.0f`, where the rounded gate is open. -/
theorem C5_fire_gate_and_retry_witness :
    0 < sampleTank.FireRate ∧
    (∃ l r, Event.SpawnActor l r ∈ (ATankBase.FireBinary32 (sampleWorld 0.5) sampleTank).2) ∧
    ((ATankBase.FireBinary32 (sampleWorld 0.5) sampleTank).1
        = { sampleTank with LastFireTime := (sampleWorld 0.5).TimeSeconds } ∧
      Event.SetOwner 900 sampleTank.self
        ∈ (ATankBase.FireBinary32 (sampleWorld 0.5) sampleTank).2) ∧
    ((ATankBase.FireBinary32 (failedSpawnWorld 0.5) sampleTank).1 = sampleTank ∧
      ∃ l r, Event.SpawnActor l r ∈
        (ATankBase.FireBinary32 (sampleWorld 0.75)
          (ATankBase.FireBinary32 (failedSpawnWorld 0.5) sampleTank).1).2) ∧
    (∃ l r, Event.SpawnActor l r ∈
      (ATankBase.FireBinary32 (sampleWorld (5368709 / 134217728))
        { sampleTank with FireRate := 25 }).2) := by
  have hrate : 0 < sampleTank.FireRate := by norm_num [sampleTank_eval.2.2.1]
  have hsub : Binary32.sub 0.5 0 = Binary32.finite (1 / 2) := by
    unfold Binary32.sub
    rw [show (0.5 - 0 : ℚ) = 1 / 2 by norm_num]
    exact round_half
  have hdiv : Binary32.oneDiv 2 = Binary32.finite (1 / 2) := by
    unfold Binary32.oneDiv
    rw [if_neg (by norm_num)]
    exact round_half
  have hgate : ∀ w : World, w.TimeSeconds = 0.5 →
      (sampleTank.bIsDestroyed = false ∧
        Binary32.ge (Binary32.sub w.TimeSeconds sampleTank.LastFireTime)
          (Binary32.oneDiv sampleTank.FireRate) = true ∧
        sampleTank.ProjectileClass = true ∧ sampleTank.ProjectileSpawnPoint = true) := by
    intro w hw
    refine ⟨sampleTank_eval.1, ?_, sampleTank_eval.2.2.2.1, sampleTank_eval.2.2.2.2.1⟩
    rw [hw, sampleTank_eval.2.1, sampleTank_eval.2.2.1, hsub, hdiv]
    simp [Binary32.ge]
  have hgate25 :
      (({ sampleTank with FireRate := 25 } : ATankBase).bIsDestroyed = false ∧
        Binary32.ge
          (Binary32.sub (sampleWorld (5368709 / 134217728)).TimeSeconds
            ({ sampleTank with FireRate := 25 } : ATankBase).LastFireTime)
          (Binary32.oneDiv ({ sampleTank with FireRate := 25 } : ATankBase).FireRate) = true ∧
        ({ sampleTank with FireRate := 25 } : ATankBase).ProjectileClass = true ∧
        ({ sampleTank with FireRate := 25 } : ATankBase).ProjectileSpawnPoint = true) := by
    refine ⟨sampleTank_eval.1, ?_, sampleTank_eval.2.2.2.1, sampleTank_eval.2.2.2.2.1⟩
    show Binary32.ge (Binary32.sub (5368709 / 134217728) sampleTank.LastFireTime)
      (Binary32.oneDiv 25) = true
    rw [sampleTank_eval.2.1, binary32_gate_boundary.2.1, binary32_gate_boundary.2.2.1]
    simp [Binary32.ge]
  have hreq1 := (C5_fire_gate_and_retry (sampleWorld 0.5) sampleTank hrate).1.2 (hgate _ rfl)
  have hreq2 :=
    (C5_fire_gate_and_retry (failedSpawnWorld 0.5) sampleTank hrate).1.2 (hgate _ rfl)
  have hretry :=
    ((C5_fire_gate_and_retry (failedSpawnWorld 0.5) sampleTank hrate).2.2 hreq2 rfl)
  exact ⟨hrate, hreq1,
    (C5_fire_gate_and_retry (sampleWorld 0.5) sampleTank hrate).2.1 900 hreq1 rfl,
    ⟨hretry.1, hretry.2 (sampleWorld 0.75) (by norm_num [failedSpawnWorld, sampleWorld])⟩,
    (C5_fire_gate_and_retry (sampleWorld (5368709 / 134217728))
      { sampleTank with FireRate := 25 } (by norm_num)).1.2 hgate25⟩

/-! ## Fire scenario and fire timestamp in binary32 -/

theorem nearest_zero : Binary32.nearest 0 = 0 := by
  unfold Binary32.nearest roundHalfEven
  simp

theorem round_zero : Binary32.round 0 = Binary32.finite 0 := by
  have hpos := maxFinite_pos
  unfold Binary32.round
  rw [nearest_zero, if_neg (by linarith), if_neg (by linarith)]

theorem nearest_tiny : Binary32.nearest (2 ^ (-128 : ℤ)) = 2 ^ (-128 : ℤ) := by
  have hlog : Int.log 2 |(2 : ℚ) ^ (-128 : ℤ)| = -128 := by
    rw [abs_of_pos (zpow_pos (by norm_num) _)]
    have := Int.log_zpow (R := ℚ) (b := 2) (by norm_num) (-128)
    rwa [Nat.cast_ofNat] at this
  have hexp : Binary32.exponent ((2 : ℚ) ^ (-128 : ℤ)) = -126 := by
    unfold Binary32.exponent
    rw [if_neg (by positivity), hlog]
    rfl
  unfold Binary32.nearest Binary32.ulp
  rw [hexp, roundHalfEven_eq _ 2097152 (by norm_num) (by norm_num)]
  norm_num

/-- The reciprocal of a positive finite binary32 value rounds to a positive value
or to `+inf`, never to zero. -/
theorem nearest_recip_pos (b : ℚ) (hb : 0 < b) (hmax : b ≤ Binary32.maxFinite) :
    0 < Binary32.nearest (1 / b) := by
  have h1 : (2 : ℚ) ^ (-128 : ℤ) ≤ 1 / b := by
    rw [le_div_iff₀ hb]
    calc (2 : ℚ) ^ (-128 : ℤ) * b ≤ 2 ^ (-128 : ℤ) * Binary32.maxFinite :=
          mul_le_mul_of_nonneg_left hmax (by positivity)
      _ ≤ 1 := by norm_num [Binary32.maxFinite]
  have h2 := nearest_mono h1
  rw [nearest_tiny] at h2
  exact lt_of_lt_of_le (by positivity) h2

/-- In binary32 too an open gate means that the clock is past `LastFireTime`. -/
theorem binary32_gate_open_later (now last rate : ℚ) (hrate : 0 < rate)
    (hmax : rate ≤ Binary32.maxFinite)
    (hg : Binary32.ge (Binary32.sub now last) (Binary32.oneDiv rate) = true) :
    last < now := by
  by_contra hle
  have hle2 : now - last ≤ 0 := by linarith [not_lt.mp hle]
  have h1 := nearest_mono hle2
  rw [nearest_zero] at h1
  have h2 := nearest_recip_pos rate hrate hmax
  have h3 : 0 < Binary32.nearest rate⁻¹ := by rwa [one_div] at h2
  have hpos := maxFinite_pos
  unfold Binary32.sub Binary32.oneDiv Binary32.round at hg
  rw [if_neg (ne_of_gt hrate)] at hg
  split_ifs at hg <;> simp [Binary32.ge] at hg <;> linarith

/-- The fire timestamp is monotone for the binary32 body as well: for a tank whose
`FireRate` is a positive finite binary32 value, `Fire` never lowers `LastFireTime`
and changes it only in a call whose spawn returned a projectile. -/
theorem fireBinary32_monotone (w : World) (t : ATankBase) (hrate : 0 < t.FireRate)
    (hmax : t.FireRate ≤ Binary32.maxFinite) :
    t.LastFireTime ≤ (ATankBase.FireBinary32 w t).1.LastFireTime ∧
    ((ATankBase.FireBinary32 w t).1.LastFireTime ≠ t.LastFireTime →
      ∃ Projectile,
        w.SpawnActor (w.SpawnPointLocation t.self) (w.SpawnPointRotation t.self)
          = some Projectile ∧
        ATankBase.FireBinary32 w t
          = ({ t with LastFireTime := w.TimeSeconds },
             [Event.SpawnActor (w.SpawnPointLocation t.self) (w.SpawnPointRotation t.self),
              Event.SetOwner Projectile t.self])) := by
  by_cases hg : t.bIsDestroyed = false ∧
      Binary32.ge (Binary32.sub w.TimeSeconds t.LastFireTime) (Binary32.oneDiv t.FireRate)
        = true ∧
      t.ProjectileClass = true ∧ t.ProjectileSpawnPoint = true
  · cases hs : w.SpawnActor (w.SpawnPointLocation t.self) (w.SpawnPointRotation t.self) with
    | none =>
      rw [((fireBinary32_cases w t).2 hg).2 hs]
      exact ⟨le_refl _, fun h => absurd rfl h⟩
    | some P =>
      rw [((fireBinary32_cases w t).2 hg).1 P hs]
      exact ⟨le_of_lt (binary32_gate_open_later _ _ _ hrate hmax hg.2.1),
        fun _ => ⟨P, rfl, rfl⟩⟩
  · rw [(fireBinary32_cases w t).1 hg]
    exact ⟨le_refl _, fun h => absurd rfl h⟩

/-- The binary32 body of `Fire` touches `LastFireTime` only, and does nothing on a
destroyed tank. -/
theorem fireBinary32_frame (w : World) (t : ATankBase) :
    (ATankBase.FireBinary32 w t).1
      = { t with LastFireTime := (ATankBase.FireBinary32 w t).1.LastFireTime } ∧
    (t.bIsDestroyed = true → ATankBase.FireBinary32 w t = (t, [])) := by
  constructor
  · unfold ATankBase.FireBinary32
    simp only
    split_ifs
    · rfl
    · rfl
    · split <;> rfl
    · rfl
  · intro hd
    simp [ATankBase.FireBinary32, hd]

/-- The fire-rate scenario decides the same way in binary32: from the initial state
with `FireRate = 2`, `Fire` at times `0.0` and `0.4` (rounded to `0.4f =
13421773 / 33554432`) spawns nothing, and `Fire` at time `0.5` spawns. -/
theorem fire_rate_scenario_binary32 :
    Binary32.sub 0.4 0 = Binary32.finite (13421773 / 33554432) ∧
    ATankBase.FireBinary32 (sampleWorld 0.0) sampleTank = (sampleTank, []) ∧
    ATankBase.FireBinary32 (sampleWorld 0.4) sampleTank = (sampleTank, []) ∧
    ATankBase.FireBinary32 (sampleWorld 0.5) sampleTank
      = ({ sampleTank with LastFireTime := 0.5 },
         [Event.SpawnActor FVector.ZeroVector FRotator.ZeroRotator, Event.SetOwner 900 2]) := by
  have h0 : Binary32.sub 0.0 0 = Binary32.finite 0 := by
    unfold Binary32.sub
    rw [show (0.0 - 0 : ℚ) = 0 by norm_num]
    exact round_zero
  have h4 : Binary32.sub 0.4 0 = Binary32.finite (13421773 / 33554432) := by
    unfold Binary32.sub
    have h := round_eq_finite (0.4 - 0) (-2) 13421773 (by norm_num)
      (by norm_num [abs_of_pos]) (by norm_num [abs_of_pos]) (by norm_num) (by norm_num)
      (by norm_num [Binary32.maxFinite, abs_of_pos])
    rw [h]
    norm_num
  have h5 : Binary32.sub 0.5 0 = Binary32.finite (1 / 2) := by
    unfold Binary32.sub
    rw [show (0.5 - 0 : ℚ) = 1 / 2 by norm_num]
    exact round_half
  have hdiv : Binary32.oneDiv 2 = Binary32.finite (1 / 2) := by
    unfold Binary32.oneDiv
    rw [if_neg (by norm_num)]
    exact round_half
  refine ⟨h4, ?_, ?_, ?_⟩
  · simp [ATankBase.FireBinary32, sampleTank, ATankBase.BeginPlay, ATankBase.ctor,
      sampleWorld, h0, hdiv, Binary32.lt]
  · simp [ATankBase.FireBinary32, sampleTank, ATankBase.BeginPlay, ATankBase.ctor,
      sampleWorld, h4, hdiv, Binary32.lt]
    norm_num
  · simp [ATankBase.FireBinary32, sampleTank, ATankBase.BeginPlay, ATankBase.ctor,
      sampleWorld, h5, hdiv, Binary32.lt, FVector.ZeroVector, FRotator.ZeroRotator]

/-! ## Enemy AI: state classification -/

theorem sampleEnemy_eval :
    sampleEnemy.PlayerTank = some 1 ∧ sampleEnemy.AttackRange = 800 ∧
    sampleEnemy.DetectionRange = 1500 ∧ sampleEnemy.bIsDestroyed = false ∧
    sampleEnemy.AIControllerRef = true ∧ sampleEnemy.CurrentState = EAIState.Idle ∧
    sampleEnemy.CurrentPatrolTarget = FVector.ZeroVector ∧
    sampleEnemy.InitialLocation = FVector.ZeroVector ∧ sampleEnemy.self = 4 := by
  simp [sampleEnemy, AEnemyTank.BeginPlay, AEnemyTank.ctor, ATankBase.BeginPlay,
    ATankBase.ctor, sampleWorld, AEnemyTank.GetRandomPatrolPoint]

theorem handlers_keep_state (w : World) (e : AEnemyTank) :
    (AEnemyTank.ExecuteAIBehavior w e).1.CurrentState = e.CurrentState := by
  unfold AEnemyTank.ExecuteAIBehavior
  cases hs : e.CurrentState
  · simp [AEnemyTank.HandleIdleState, hs]
  · unfold AEnemyTank.HandlePatrollingState
    simp only
    split_ifs <;> simp [hs]
  · unfold AEnemyTank.HandleChasingState
    cases e.PlayerTank with
    | none => simp [hs]
    | some Player =>
      simp only
      split_ifs <;> simp [AEnemyTank.withBase, hs]
  · unfold AEnemyTank.HandleAttackingState
    cases e.PlayerTank with
    | none => simp [hs]
    | some Player =>
      simp only
      split_ifs <;> simp [AEnemyTank.withBase, hs]

/-- C6 (AI state classification). For every enemy tank and every world snapshot,
`UpdateAIState` changes nothing but `CurrentState`, and sets it to `Patrolling` if
the tracked player is absent or destroyed (whatever the distance), otherwise to
`Attacking` if the distance to the player is `≤ AttackRange`, otherwise to `Chasing`
if it is `≤ DetectionRange`, otherwise to `Patrolling`. The result does not depend
on the previous state and is never `Idle`. In particular with `AttackRange = 800`
and `DetectionRange = 1500`, distance `700` gives `Attacking`, `1000` gives
`Chasing` and `2000` gives `Patrolling`. On a live tank every `Tick` runs this
classification and the state after the tick is the one it selected. -/
theorem C6_ai_state_classification (w : World) (e : AEnemyTank) :
    (AEnemyTank.UpdateAIState w e
        = { e with CurrentState := (AEnemyTank.UpdateAIState w e).CurrentState }) ∧
    ((e.PlayerTank = none ∨ ∃ Player, e.PlayerTank = some Player ∧
        w.TankIsDestroyed Player = true) →
      (AEnemyTank.UpdateAIState w e).CurrentState = EAIState.Patrolling) ∧
    (∀ Player, e.PlayerTank = some Player → w.TankIsDestroyed Player = false →
      (w.Dist (w.ActorLocation e.self) (w.ActorLocation Player) ≤ e.AttackRange →
        (AEnemyTank.UpdateAIState w e).CurrentState = EAIState.Attacking) ∧
      (¬ w.Dist (w.ActorLocation e.self) (w.ActorLocation Player) ≤ e.AttackRange →
        w.Dist (w.ActorLocation e.self) (w.ActorLocation Player) ≤ e.DetectionRange →
        (AEnemyTank.UpdateAIState w e).CurrentState = EAIState.Chasing) ∧
      (¬ w.Dist (w.ActorLocation e.self) (w.ActorLocation Player) ≤ e.AttackRange →
        ¬ w.Dist (w.ActorLocation e.self) (w.ActorLocation Player) ≤ e.DetectionRange →
        (AEnemyTank.UpdateAIState w e).CurrentState = EAIState.Patrolling) ∧
      (e.AttackRange = 800 → e.DetectionRange = 1500 →
        (w.Dist (w.ActorLocation e.self) (w.ActorLocation Player) = 700 →
          (AEnemyTank.UpdateAIState w e).CurrentState = EAIState.Attacking) ∧
        (w.Dist (w.ActorLocation e.self) (w.ActorLocation Player) = 1000 →
          (AEnemyTank.UpdateAIState w e).CurrentState = EAIState.Chasing) ∧
        (w.Dist (w.ActorLocation e.self) (w.ActorLocation Player) = 2000 →
          (AEnemyTank.UpdateAIState w e).CurrentState = EAIState.Patrolling))) ∧
    (∀ previous : EAIState,
      (AEnemyTank.UpdateAIState w { e with CurrentState := previous }).CurrentState
        = (AEnemyTank.UpdateAIState w e).CurrentState) ∧
    (AEnemyTank.UpdateAIState w e).CurrentState ≠ EAIState.Idle ∧
    (e.bIsDestroyed = false →
      (AEnemyTank.Tick w e).1.CurrentState = (AEnemyTank.UpdateAIState w e).CurrentState) := by
  refine ⟨?_, ?_, ?_, ?_, ?_, ?_⟩
  · cases hP : e.PlayerTank with
    | none => simp [AEnemyTank.UpdateAIState, hP]
    | some P =>
      simp only [AEnemyTank.UpdateAIState, hP]
      split_ifs <;> rfl
  · rintro (h | ⟨P, hP, hd⟩)
    · simp [AEnemyTank.UpdateAIState, h]
    · simp [AEnemyTank.UpdateAIState, hP, hd]
  · intro P hP hd
    refine ⟨?_, ?_, ?_, ?_⟩
    · intro h1
      simp [AEnemyTank.UpdateAIState, hP, hd, h1]
    · intro h1 h2
      simp only [AEnemyTank.UpdateAIState, hP, hd, Bool.false_eq_true, if_false, if_neg h1,
        if_pos h2]
    · intro h1 h2
      simp only [AEnemyTank.UpdateAIState, hP, hd, Bool.false_eq_true, if_false, if_neg h1,
        if_neg h2]
    · intro ha hr
      refine ⟨?_, ?_, ?_⟩ <;> intro hdist <;>
        norm_num [AEnemyTank.UpdateAIState, hP, hd, ha, hr, hdist]
  · intro previous
    unfold AEnemyTank.UpdateAIState
    cases hP : e.PlayerTank with
    | none => simp
    | some P => simp
  · cases hP : e.PlayerTank with
    | none => simp [AEnemyTank.UpdateAIState, hP]
    | some P =>
      simp only [AEnemyTank.UpdateAIState, hP]
      split_ifs <;> simp
  · intro hlive
    simp [AEnemyTank.Tick, ATankBase.IsDestroyed, hlive, handlers_keep_state]

/-- Witness for C6: `sampleEnemy` (`AttackRange = 800`, `DetectionRange = 1500`,
tracking the live player `1`) at distances `700`, `1000` and `2000`, and the same
tank without a player at distance `700`. -/
theorem C6_ai_state_classification_witness :
    (AEnemyTank.UpdateAIState (distWorld 700) sampleEnemy).CurrentState = EAIState.Attacking ∧
    (AEnemyTank.UpdateAIState (distWorld 1000) sampleEnemy).CurrentState = EAIState.Chasing ∧
    (AEnemyTank.UpdateAIState (distWorld 2000) sampleEnemy).CurrentState
      = EAIState.Patrolling ∧
    (AEnemyTank.UpdateAIState (distWorld 700) { sampleEnemy with PlayerTank := none }).CurrentState
      = EAIState.Patrolling :=
  ⟨((C6_ai_state_classification (distWorld 700) sampleEnemy).2.2.1 1 sampleEnemy_eval.1
      rfl).2.2.2 sampleEnemy_eval.2.1 sampleEnemy_eval.2.2.1 |>.1 rfl,
   ((C6_ai_state_classification (distWorld 1000) sampleEnemy).2.2.1 1 sampleEnemy_eval.1
      rfl).2.2.2 sampleEnemy_eval.2.1 sampleEnemy_eval.2.2.1 |>.2.1 rfl,
   ((C6_ai_state_classification (distWorld 2000) sampleEnemy).2.2.1 1 sampleEnemy_eval.1
      rfl).2.2.2 sampleEnemy_eval.2.1 sampleEnemy_eval.2.2.1 |>.2.2 rfl,
   (C6_ai_state_classification (distWorld 700) { sampleEnemy with PlayerTank := none }).2.1
      (Or.inl rfl)⟩

/-! ## Projectile impact -/

theorem onHit_cases (w : World) (p : AProjectile) (OtherActor : Option ActorId) :
    (∀ MyOwner Other, p.Owner = some MyOwner → OtherActor = some Other →
      Other ≠ p.self → Other ≠ MyOwner →
      AProjectile.OnHit w p OtherActor
        = [Event.ApplyPointDamage Other p.Damage (w.ActorLocation p.self),
           Event.SpawnEmitterAtLocation (w.ActorLocation p.self),
           Event.PlaySoundAtLocation (w.ActorLocation p.self),
           Event.Destroy p.self]) ∧
    ((¬ ∃ MyOwner Other, p.Owner = some MyOwner ∧ OtherActor = some Other ∧
        Other ≠ p.self ∧ Other ≠ MyOwner) →
      AProjectile.OnHit w p OtherActor = []) := by
  constructor
  · intro MyOwner Other hO hA h1 h2
    simp [AProjectile.OnHit, hO, hA, h1, h2]
  · intro h
    unfold AProjectile.OnHit
    cases hO : p.Owner with
    | none => rfl
    | some MyOwner =>
      cases hA : OtherActor with
      | none => rfl
      | some Other =>
        simp only
        split_ifs with hc
        · exact absurd ⟨MyOwner, Other, hO, hA, hc.1, hc.2⟩ h
        · rfl

/-- C7 (self-hit and ownerless exclusion). For every projectile and every contacted
entity, `OnHit` applies damage and, equally, destroys the projectile if and only if
the projectile has a recorded owner, the other entity exists and it is neither the
projectile itself nor its owner; in that case the damage `Damage` goes to the other
entity, followed by the effects and `Destroy` on the projectile, and otherwise
`OnHit` does nothing. In particular a projectile with owner `A` that contacts `A`
applies no damage and is not destroyed, and an ownerless projectile never applies
damage. -/
theorem C7_projectile_impact (w : World) (p : AProjectile) (OtherActor : Option ActorId) :
    ((∃ target amount loc, Event.ApplyPointDamage target amount loc
          ∈ AProjectile.OnHit w p OtherActor) ↔
      (∃ MyOwner Other, p.Owner = some MyOwner ∧ OtherActor = some Other ∧
        Other ≠ p.self ∧ Other ≠ MyOwner)) ∧
    (Event.Destroy p.self ∈ AProjectile.OnHit w p OtherActor ↔
      (∃ MyOwner Other, p.Owner = some MyOwner ∧ OtherActor = some Other ∧
        Other ≠ p.self ∧ Other ≠ MyOwner)) ∧
    (∀ MyOwner Other, p.Owner = some MyOwner → OtherActor = some Other →
      Other ≠ p.self → Other ≠ MyOwner →
      AProjectile.OnHit w p OtherActor
        = [Event.ApplyPointDamage Other p.Damage (w.ActorLocation p.self),
           Event.SpawnEmitterAtLocation (w.ActorLocation p.self),
           Event.PlaySoundAtLocation (w.ActorLocation p.self),
           Event.Destroy p.self]) ∧
    ((¬ ∃ MyOwner Other, p.Owner = some MyOwner ∧ OtherActor = some Other ∧
        Other ≠ p.self ∧ Other ≠ MyOwner) →
      AProjectile.OnHit w p OtherActor = []) ∧
    (∀ A, p.Owner = some A → OtherActor = some A → AProjectile.OnHit w p OtherActor = []) ∧
    (p.Owner = none → AProjectile.OnHit w p OtherActor = []) := by
  obtain ⟨hyes, hno⟩ := onHit_cases w p OtherActor
  refine ⟨?_, ?_, hyes, hno, ?_, ?_⟩
  · constructor
    · intro h
      by_contra hn
      rw [hno hn] at h
      simp at h
    · rintro ⟨MyOwner, Other, hO, hA, h1, h2⟩
      rw [hyes MyOwner Other hO hA h1 h2]
      exact ⟨Other, p.Damage, w.ActorLocation p.self, by simp⟩
  · constructor
    · intro h
      by_contra hn
      rw [hno hn] at h
      simp at h
    · rintro ⟨MyOwner, Other, hO, hA, h1, h2⟩
      rw [hyes MyOwner Other hO hA h1 h2]
      simp
  · intro A hO hA
    apply hno
    rintro ⟨MyOwner, Other, hO2, hA2, _, h2⟩
    rw [hO] at hO2
    rw [hA] at hA2
    simp only [Option.some.injEq] at hO2 hA2
    exact h2 (hA2.symm.trans hO2)
  · intro hO
    apply hno
    rintro ⟨MyOwner, Other, hO2, _⟩
    rw [hO] at hO2
    simp at hO2

/-- Witness for C7: the projectile `900` of tank `2` hits the obstacle `3` (damage
`25` is applied and the projectile destroyed), its owner `2` (nothing happens), and
an ownerless copy hits the obstacle `3` (nothing happens). -/
theorem C7_projectile_impact_witness :
    AProjectile.OnHit (sampleWorld 0) sampleProjectile (some 3)
      = [Event.ApplyPointDamage 3 sampleProjectile.Damage
            ((sampleWorld 0).ActorLocation sampleProjectile.self),
         Event.SpawnEmitterAtLocation ((sampleWorld 0).ActorLocation sampleProjectile.self),
         Event.PlaySoundAtLocation ((sampleWorld 0).ActorLocation sampleProjectile.self),
         Event.Destroy sampleProjectile.self] ∧
    AProjectile.OnHit (sampleWorld 0) sampleProjectile (some 2) = [] ∧
    AProjectile.OnHit (sampleWorld 0) { sampleProjectile with Owner := none } (some 3) = [] :=
  ⟨(C7_projectile_impact (sampleWorld 0) sampleProjectile (some 3)).2.2.1 2 3 rfl rfl
      (by decide) (by decide),
   (C7_projectile_impact (sampleWorld 0) sampleProjectile (some 2)).2.2.2.2.1 2 rfl rfl,
   (C7_projectile_impact (sampleWorld 0) { sampleProjectile with Owner := none }
      (some 3)).2.2.2.2.2 rfl⟩

/-! ## Enemy AI: attack occlusion -/

theorem rotate_events (w : World) (t : ATankBase) (TargetLocation : FVector) :
    (ATankBase.RotateTurretTowards w t TargetLocation).2 = [] ∧
    (ATankBase.RotateTurretTowards w t TargetLocation).1.LastFireTime = t.LastFireTime ∧
    (ATankBase.RotateTurretTowards w t TargetLocation).1.bIsDestroyed = t.bIsDestroyed := by
  unfold ATankBase.RotateTurretTowards
  split_ifs <;> simp

theorem attack_occluded (w : World) (e : AEnemyTank) (Player : ActorId)
    (hP : e.PlayerTank = some Player)
    (hocc : w.LineTraceSingleByChannel (w.ActorLocation e.self) (w.ActorLocation Player)
      ≠ some Player) :
    (AEnemyTank.HandleAttackingState w e).1.toATankBase
      = (if w.TankIsDestroyed Player then e.toATankBase
         else (ATankBase.RotateTurretTowards w e.toATankBase (w.ActorLocation Player)).1) ∧
    (AEnemyTank.HandleAttackingState w e).2
      = (if w.TankIsDestroyed Player then []
         else if e.AIControllerRef then [Event.StopMovement] else []) := by
  unfold AEnemyTank.HandleAttackingState
  simp only [hP]
  cases hd : w.TankIsDestroyed Player
  · simp [hocc, AEnemyTank.withBase, rotate_events]
  · simp

theorem attack_spawn_needs_hit (w : World) (e : AEnemyTank)
    (h : ∃ l r, Event.SpawnActor l r ∈ (AEnemyTank.HandleAttackingState w e).2) :
    ∃ Player, e.PlayerTank = some Player ∧ w.TankIsDestroyed Player = false ∧
      w.LineTraceSingleByChannel (w.ActorLocation e.self) (w.ActorLocation Player)
        = some Player := by
  cases hP : e.PlayerTank with
  | none => simp [AEnemyTank.HandleAttackingState, hP] at h
  | some Player =>
    refine ⟨Player, rfl, ?_⟩
    by_cases hocc : w.LineTraceSingleByChannel (w.ActorLocation e.self)
        (w.ActorLocation Player) = some Player
    · cases hd : w.TankIsDestroyed Player
      · exact ⟨rfl, hocc⟩
      · simp [AEnemyTank.HandleAttackingState, hP, hd] at h
    · rw [(attack_occluded w e Player hP hocc).2] at h
      obtain ⟨l, r, h⟩ := h
      split_ifs at h <;> simp at h

theorem other_states_no_spawn (w : World) (e : AEnemyTank) (l : FVector) (r : FRotator) :
    Event.SpawnActor l r ∉ (AEnemyTank.HandleIdleState e).2 ∧
    Event.SpawnActor l r ∉ (AEnemyTank.HandlePatrollingState w e).2 ∧
    Event.SpawnActor l r ∉ (AEnemyTank.HandleChasingState w e).2 := by
  refine ⟨by simp [AEnemyTank.HandleIdleState], ?_, ?_⟩
  · unfold AEnemyTank.HandlePatrollingState AEnemyTank.MoveToTarget
    simp only
    split_ifs <;> simp
  · unfold AEnemyTank.HandleChasingState AEnemyTank.MoveToTarget
    cases hP : e.PlayerTank with
    | none => simp
    | some Player =>
      simp only
      split_ifs <;> simp [AEnemyTank.withBase, rotate_events]

theorem updateAIState_frame (w : World) (e : AEnemyTank) :
    AEnemyTank.UpdateAIState w e
      = { e with CurrentState := (AEnemyTank.UpdateAIState w e).CurrentState } := by
  cases hP : e.PlayerTank with
  | none => simp [AEnemyTank.UpdateAIState, hP]
  | some P =>
    simp only [AEnemyTank.UpdateAIState, hP]
    split_ifs <;> rfl

theorem attacking_has_player (w : World) (e : AEnemyTank)
    (hattack : (AEnemyTank.UpdateAIState w e).CurrentState = EAIState.Attacking) :
    ∃ Player, e.PlayerTank = some Player ∧ w.TankIsDestroyed Player = false := by
  cases hP : e.PlayerTank with
  | none => simp [AEnemyTank.UpdateAIState, hP] at hattack
  | some Player =>
    refine ⟨Player, rfl, ?_⟩
    cases hd : w.TankIsDestroyed Player
    · rfl
    · simp [AEnemyTank.UpdateAIState, hP, hd] at hattack

/-- In a world whose line trace hits the player first, the tick of `sampleEnemy` in
the `Attacking` state at time `1` does fire: a projectile spawn is requested. -/
theorem clear_shot_fires :
    ∃ l r, Event.SpawnActor l r ∈ (AEnemyTank.Tick (clearShotWorld 1) sampleEnemy).2 := by
  refine ⟨FVector.ZeroVector, FRotator.ZeroRotator, ?_⟩
  norm_num [AEnemyTank.Tick, ATankBase.IsDestroyed, AEnemyTank.UpdateAIState,
    AEnemyTank.ExecuteAIBehavior, AEnemyTank.HandleAttackingState, AEnemyTank.withBase,
    ATankBase.RotateTurretTowards, ATankBase.Fire, clearShotWorld, sampleWorld, sampleEnemy,
    AEnemyTank.BeginPlay, AEnemyTank.ctor, ATankBase.BeginPlay, ATankBase.ctor,
    AEnemyTank.GetRandomPatrolPoint]

/-- C8 (attack occlusion). For every live enemy tank and every tick that runs in the
`Attacking` state (the classification of that tick yields `Attacking`), the tracked
player exists, and if the line trace from the tank to the player returns no hit or
a first hit that is not the tracked player, then the tick requests no projectile
spawn and leaves `LastFireTime` unchanged: the tank state after the tick is the one
produced by the turret rotation alone and the only command is the optional
`StopMovement`, so nothing of `Fire` has run. Conversely a spawn request or a change
of `LastFireTime` in that tick implies that the first hit is the player. -/
theorem C8_attack_occlusion (w : World) (e : AEnemyTank) (hlive : e.bIsDestroyed = false)
    (hattack : (AEnemyTank.UpdateAIState w e).CurrentState = EAIState.Attacking) :
    ∃ Player, e.PlayerTank = some Player ∧
      (w.LineTraceSingleByChannel (w.ActorLocation e.self) (w.ActorLocation Player)
          ≠ some Player →
        (∀ l r, Event.SpawnActor l r ∉ (AEnemyTank.Tick w e).2) ∧
        (AEnemyTank.Tick w e).1.LastFireTime = e.LastFireTime ∧
        (AEnemyTank.Tick w e).1.toATankBase
          = (ATankBase.RotateTurretTowards w e.toATankBase (w.ActorLocation Player)).1 ∧
        (AEnemyTank.Tick w e).2 = (if e.AIControllerRef then [Event.StopMovement] else [])) ∧
      (((∃ l r, Event.SpawnActor l r ∈ (AEnemyTank.Tick w e).2) ∨
          (AEnemyTank.Tick w e).1.LastFireTime ≠ e.LastFireTime) →
        w.LineTraceSingleByChannel (w.ActorLocation e.self) (w.ActorLocation Player)
          = some Player) := by
  obtain ⟨Player, hP, hd⟩ := attacking_has_player w e hattack
  have htick : AEnemyTank.Tick w e
      = AEnemyTank.HandleAttackingState w (AEnemyTank.UpdateAIState w e) := by
    simp [AEnemyTank.Tick, ATankBase.IsDestroyed, hlive, AEnemyTank.ExecuteAIBehavior, hattack]
  have hframe := updateAIState_frame w e
  have hP2 : (AEnemyTank.UpdateAIState w e).PlayerTank = some Player := by
    rw [hframe]; exact hP
  have hbase : (AEnemyTank.UpdateAIState w e).toATankBase = e.toATankBase := by
    rw [hframe]
  have hctl : (AEnemyTank.UpdateAIState w e).AIControllerRef = e.AIControllerRef := by
    rw [hframe]
  have hocc : w.LineTraceSingleByChannel (w.ActorLocation e.self) (w.ActorLocation Player)
        ≠ some Player →
      (∀ l r, Event.SpawnActor l r ∉ (AEnemyTank.Tick w e).2) ∧
      (AEnemyTank.Tick w e).1.LastFireTime = e.LastFireTime ∧
      (AEnemyTank.Tick w e).1.toATankBase
        = (ATankBase.RotateTurretTowards w e.toATankBase (w.ActorLocation Player)).1 ∧
      (AEnemyTank.Tick w e).2 = (if e.AIControllerRef then [Event.StopMovement] else []) := by
    intro hne
    have hne2 : w.LineTraceSingleByChannel
        (w.ActorLocation (AEnemyTank.UpdateAIState w e).self) (w.ActorLocation Player)
          ≠ some Player := by
      rw [hbase]; exact hne
    obtain ⟨h1, h2⟩ := attack_occluded w (AEnemyTank.UpdateAIState w e) Player hP2 hne2
    rw [hd, hbase] at h1
    rw [hd, hctl] at h2
    simp only [Bool.false_eq_true, if_false] at h1 h2
    rw [htick]
    refine ⟨?_, ?_, h1, h2⟩
    · intro l r
      rw [h2]
      split_ifs <;> simp
    · show (AEnemyTank.HandleAttackingState w (AEnemyTank.UpdateAIState w e)).1.toATankBase.LastFireTime
        = e.LastFireTime
      rw [h1]
      exact (rotate_events w e.toATankBase _).2.1
  refine ⟨Player, hP, hocc, ?_⟩
  intro h
  by_contra hne
  obtain ⟨hs, hl, _, _⟩ := hocc hne
  rcases h with ⟨l, r, h⟩ | h
  · exact hs l r h
  · exact h hl

/-- Witness for C8: `sampleEnemy` at distance `700` from the live player `1`, in a
world whose line trace hits nothing. -/
theorem C8_attack_occlusion_witness :
    sampleEnemy.bIsDestroyed = false ∧
    (AEnemyTank.UpdateAIState (distWorld 700) sampleEnemy).CurrentState = EAIState.Attacking ∧
    (distWorld 700).LineTraceSingleByChannel ((distWorld 700).ActorLocation sampleEnemy.self)
      ((distWorld 700).ActorLocation 1) ≠ some 1 ∧
    (∀ l r, Event.SpawnActor l r ∉ (AEnemyTank.Tick (distWorld 700) sampleEnemy).2) ∧
    (AEnemyTank.Tick (distWorld 700) sampleEnemy).1.LastFireTime = sampleEnemy.LastFireTime ∧
    (AEnemyTank.Tick (distWorld 700) sampleEnemy).2 = [Event.StopMovement] := by
  have hattack :
      (AEnemyTank.UpdateAIState (distWorld 700) sampleEnemy).CurrentState
        = EAIState.Attacking := by
    norm_num [AEnemyTank.UpdateAIState, sampleEnemy_eval.1, sampleEnemy_eval.2.1, distWorld,
      sampleWorld]
  have hmiss : (distWorld 700).LineTraceSingleByChannel
      ((distWorld 700).ActorLocation sampleEnemy.self) ((distWorld 700).ActorLocation 1)
        ≠ some 1 := by
    simp [distWorld, sampleWorld]
  obtain ⟨Player, hP, hocc, _⟩ :=
    C8_attack_occlusion (distWorld 700) sampleEnemy sampleEnemy_eval.2.2.2.1 hattack
  have hPlayer : Player = 1 := by
    rw [sampleEnemy_eval.1] at hP
    exact (Option.some.inj hP).symm
  subst hPlayer
  obtain ⟨h1, h2, _, h4⟩ := hocc hmiss
  refine ⟨sampleEnemy_eval.2.2.2.1, hattack, hmiss, h1, h2, ?_⟩
  rw [h4, sampleEnemy_eval.2.2.2.2.1]
  rfl

/-! ## Enemy AI: patrol -/

theorem patrolEnemy_eval :
    patrolEnemy.bIsDestroyed = false ∧ patrolEnemy.AIControllerRef = true ∧
    patrolEnemy.CurrentPatrolTarget = ⟨300, 0, 0⟩ ∧
    patrolEnemy.InitialLocation = FVector.ZeroVector ∧ patrolEnemy.PlayerTank = some 1 := by
  simp [patrolEnemy, sampleEnemy_eval]

/-- C9, the claim as stated fails. The live enemy `patrolEnemy` ticks in the
`Patrolling` state at distance `50 < 100` from its patrol target `(300, 0, 0)`; the
reachable-point sampling succeeds and returns `(300, 0, 0)` again, so the target
after the tick equals the previous one (and is not `InitialLocation`). The same
tank without an AI controller issues no move request in that tick. -/
theorem C9_counterexample :
    patrolEnemy.bIsDestroyed = false ∧
    (AEnemyTank.UpdateAIState repeatNavWorld patrolEnemy).CurrentState = EAIState.Patrolling ∧
    repeatNavWorld.Dist (repeatNavWorld.ActorLocation patrolEnemy.self)
      patrolEnemy.CurrentPatrolTarget < 100 ∧
    (AEnemyTank.Tick repeatNavWorld patrolEnemy).1.CurrentPatrolTarget
      = patrolEnemy.CurrentPatrolTarget ∧
    (AEnemyTank.Tick repeatNavWorld patrolEnemy).1.CurrentPatrolTarget
      ≠ patrolEnemy.InitialLocation ∧
    (AEnemyTank.Tick repeatNavWorld { patrolEnemy with AIControllerRef := false }).2 = [] := by
  have h := patrolEnemy_eval
  refine ⟨h.1, ?_, ?_, ?_, ?_, ?_⟩
  · simp [AEnemyTank.UpdateAIState, h.2.2.2.2, repeatNavWorld]
  · norm_num [repeatNavWorld]
  · norm_num [AEnemyTank.Tick, ATankBase.IsDestroyed, h.1, AEnemyTank.UpdateAIState,
      h.2.2.2.2, repeatNavWorld, AEnemyTank.ExecuteAIBehavior, AEnemyTank.HandlePatrollingState,
      AEnemyTank.GetRandomPatrolPoint, h.2.2.1]
  · norm_num [AEnemyTank.Tick, ATankBase.IsDestroyed, h.1, AEnemyTank.UpdateAIState,
      h.2.2.2.2, repeatNavWorld, AEnemyTank.ExecuteAIBehavior, AEnemyTank.HandlePatrollingState,
      AEnemyTank.GetRandomPatrolPoint, h.2.2.2.1, FVector.ZeroVector]
  · norm_num [AEnemyTank.Tick, ATankBase.IsDestroyed, h.1, AEnemyTank.UpdateAIState,
      h.2.2.2.2, repeatNavWorld, AEnemyTank.ExecuteAIBehavior, AEnemyTank.HandlePatrollingState,
      AEnemyTank.MoveToTarget]

theorem patrol_tick (w : World) (e : AEnemyTank) (hlive : e.bIsDestroyed = false)
    (hpatrol : (AEnemyTank.UpdateAIState w e).CurrentState = EAIState.Patrolling) :
    AEnemyTank.Tick w e
      = AEnemyTank.HandlePatrollingState w { e with CurrentState := EAIState.Patrolling } := by
  have hframe := updateAIState_frame w e
  rw [hpatrol] at hframe
  simp [AEnemyTank.Tick, ATankBase.IsDestroyed, hlive, AEnemyTank.ExecuteAIBehavior, hpatrol,
    hframe]

/-- C9 as amended. For every live enemy tank and every tick that runs in the
`Patrolling` state: when the distance to `CurrentPatrolTarget` is below `100` the
tick replaces `CurrentPatrolTarget` with the point returned by the reachable-point
sampling around `InitialLocation` within `PatrolRadius` (a point that need not
differ from the previous target), or with `InitialLocation` if there is no
navigation system or the sampling fails; otherwise the target is kept. Apart from
`CurrentState` and `CurrentPatrolTarget` the tank is unchanged. Whether or not a
resample happened, the tick issues exactly one move request toward the (possibly
updated) `CurrentPatrolTarget` with acceptance radius `50` when the tank has an AI
controller, and no command at all when it has none. -/
theorem C9_patrol_resample (w : World) (e : AEnemyTank) (hlive : e.bIsDestroyed = false)
    (hpatrol : (AEnemyTank.UpdateAIState w e).CurrentState = EAIState.Patrolling) :
    (w.Dist (w.ActorLocation e.self) e.CurrentPatrolTarget < 100 →
      (∀ nav point, w.NavSystem = some nav →
        nav e.InitialLocation e.PatrolRadius = some point →
        (AEnemyTank.Tick w e).1.CurrentPatrolTarget = point) ∧
      ((w.NavSystem = none ∨
          ∃ nav, w.NavSystem = some nav ∧ nav e.InitialLocation e.PatrolRadius = none) →
        (AEnemyTank.Tick w e).1.CurrentPatrolTarget = e.InitialLocation)) ∧
    (¬ w.Dist (w.ActorLocation e.self) e.CurrentPatrolTarget < 100 →
      (AEnemyTank.Tick w e).1.CurrentPatrolTarget = e.CurrentPatrolTarget) ∧
    (AEnemyTank.Tick w e).1
      = { e with
          CurrentState := EAIState.Patrolling
          CurrentPatrolTarget := (AEnemyTank.Tick w e).1.CurrentPatrolTarget } ∧
    (AEnemyTank.Tick w e).2
      = (if e.AIControllerRef
         then [Event.MoveTo (AEnemyTank.Tick w e).1.CurrentPatrolTarget 50] else []) := by
  rw [patrol_tick w e hlive hpatrol]
  refine ⟨?_, ?_, ?_, ?_⟩
  · intro hnear
    have hnear2 : w.Dist (w.ActorLocation e.toATankBase.self) e.CurrentPatrolTarget < 100 :=
      hnear
    constructor
    · intro nav point hnav hpoint
      simp [AEnemyTank.HandlePatrollingState, hnear2, AEnemyTank.GetRandomPatrolPoint, hnav,
        hpoint]
    · rintro (hnav | ⟨nav, hnav, hfail⟩)
      · simp [AEnemyTank.HandlePatrollingState, hnear2, AEnemyTank.GetRandomPatrolPoint, hnav]
      · simp [AEnemyTank.HandlePatrollingState, hnear2, AEnemyTank.GetRandomPatrolPoint, hnav,
          hfail]
  · intro hfar
    have hfar2 : ¬ w.Dist (w.ActorLocation e.toATankBase.self) e.CurrentPatrolTarget < 100 :=
      hfar
    simp [AEnemyTank.HandlePatrollingState, hfar2]
  · unfold AEnemyTank.HandlePatrollingState
    simp only
    split_ifs <;> rfl
  · unfold AEnemyTank.HandlePatrollingState AEnemyTank.MoveToTarget
    simp only
    split_ifs <;> rfl

/-- Witness for C9 as amended: `patrolEnemy` ticks in `repeatNavWorld` (player
destroyed, distance `50`, sampling returns `(300, 0, 0)`). -/
theorem C9_patrol_resample_witness :
    patrolEnemy.bIsDestroyed = false ∧
    (AEnemyTank.UpdateAIState repeatNavWorld patrolEnemy).CurrentState = EAIState.Patrolling ∧
    repeatNavWorld.Dist (repeatNavWorld.ActorLocation patrolEnemy.self)
      patrolEnemy.CurrentPatrolTarget < 100 ∧
    (AEnemyTank.Tick repeatNavWorld patrolEnemy).1.CurrentPatrolTarget = ⟨300, 0, 0⟩ ∧
    (AEnemyTank.Tick repeatNavWorld patrolEnemy).2 = [Event.MoveTo ⟨300, 0, 0⟩ 50] := by
  have h := patrolEnemy_eval
  have hpatrol :
      (AEnemyTank.UpdateAIState repeatNavWorld patrolEnemy).CurrentState
        = EAIState.Patrolling := by
    simp [AEnemyTank.UpdateAIState, h.2.2.2.2, repeatNavWorld]
  have hnear : repeatNavWorld.Dist (repeatNavWorld.ActorLocation patrolEnemy.self)
      patrolEnemy.CurrentPatrolTarget < 100 := by
    norm_num [repeatNavWorld]
  obtain ⟨h1, _, _, h4⟩ := C9_patrol_resample repeatNavWorld patrolEnemy h.1 hpatrol
  have htarget := (h1 hnear).1 (fun _ _ => some ⟨300, 0, 0⟩) ⟨300, 0, 0⟩ rfl rfl
  refine ⟨h.1, hpatrol, hnear, htarget, ?_⟩
  rw [h4, htarget, h.2.1]
  rfl

/-! ## Destroyed is a terminal latch -/

theorem fire_frame (w : World) (t : ATankBase) :
    (ATankBase.Fire w t).1.MaxHealth = t.MaxHealth ∧
    (ATankBase.Fire w t).1.CurrentHealth = t.CurrentHealth ∧
    (ATankBase.Fire w t).1.bIsDestroyed = t.bIsDestroyed := by
  unfold ATankBase.Fire
  simp only
  split_ifs
  · simp
  · simp
  · split <;> simp
  · simp

theorem rotate_frame (w : World) (t : ATankBase) (TargetLocation : FVector) :
    (ATankBase.RotateTurretTowards w t TargetLocation).1.MaxHealth = t.MaxHealth ∧
    (ATankBase.RotateTurretTowards w t TargetLocation).1.CurrentHealth = t.CurrentHealth := by
  unfold ATankBase.RotateTurretTowards
  split_ifs <;> simp

theorem dead_fire (w : World) (t : ATankBase) (hdead : t.bIsDestroyed = true) :
    ATankBase.Fire w t = (t, []) := by
  simp [ATankBase.Fire, hdead]

theorem dead_rotate (w : World) (t : ATankBase) (TargetLocation : FVector)
    (hdead : t.bIsDestroyed = true) :
    ATankBase.RotateTurretTowards w t TargetLocation = (t, []) := by
  simp [ATankBase.RotateTurretTowards, hdead]

theorem healthInv_of_fields (t u : ATankBase) (h : t.HealthInv)
    (h1 : u.MaxHealth = t.MaxHealth) (h2 : u.CurrentHealth = t.CurrentHealth)
    (h3 : u.bIsDestroyed = t.bIsDestroyed) : u.HealthInv := by
  unfold ATankBase.HealthInv at *
  rw [h1, h2, h3]
  exact h

theorem takeDamage_healthInv (cls : TankClass) (w : World) (t : ATankBase) (DamageAmount : ℚ)
    (h : t.HealthInv)
    (happlied : t.bIsDestroyed = true → 0 ≤ w.SuperTakeDamage DamageAmount) :
    (ATankBase.TakeDamageVia cls.HandleDestruction w t DamageAmount).2.1.HealthInv := by
  obtain ⟨hMax, hzero⟩ := h
  cases hd : t.bIsDestroyed
  · obtain ⟨hc, hm⟩ := tank_step_health cls w t DamageAmount
    refine ⟨by rw [hm]; exact hMax, ?_⟩
    intro hdead
    have hnn := clamp_nonneg (t.CurrentHealth - w.SuperTakeDamage DamageAmount) t.MaxHealth
      (le_of_lt hMax)
    rw [hc]
    by_contra hne
    have hpos : 0 < FMath.Clamp (t.CurrentHealth - w.SuperTakeDamage DamageAmount) 0
        t.MaxHealth := lt_of_le_of_ne hnn (Ne.symm hne)
    have : (ATankBase.TakeDamageVia cls.HandleDestruction w t DamageAmount).2.1.bIsDestroyed
        = false := by
      unfold ATankBase.TakeDamageVia
      simp only
      rw [if_neg]
      · exact hd
      · intro hcon
        exact absurd hcon.1 (not_le.mpr hpos)
    rw [this] at hdead
    exact Bool.noConfusion hdead
  · have := dead_tank_takes_no_damage cls w t DamageAmount hMax (hzero hd) hd (happlied hd)
    rw [this]
    exact ⟨hMax, hzero⟩

theorem handlers_frame (w : World) (e : AEnemyTank) :
    ((AEnemyTank.ExecuteAIBehavior w e).1.MaxHealth = e.MaxHealth ∧
    (AEnemyTank.ExecuteAIBehavior w e).1.CurrentHealth = e.CurrentHealth ∧
    (AEnemyTank.ExecuteAIBehavior w e).1.bIsDestroyed = e.bIsDestroyed) := by
  unfold AEnemyTank.ExecuteAIBehavior
  cases e.CurrentState
  · simp [AEnemyTank.HandleIdleState]
  · unfold AEnemyTank.HandlePatrollingState
    simp only
    split_ifs <;> simp
  · unfold AEnemyTank.HandleChasingState
    cases e.PlayerTank with
    | none => simp
    | some Player =>
      simp only
      split_ifs
      · simp [AEnemyTank.withBase, rotate_frame, rotate_events]
      · simp
  · unfold AEnemyTank.HandleAttackingState
    cases e.PlayerTank with
    | none => simp
    | some Player =>
      simp only
      split_ifs <;> simp [AEnemyTank.withBase, rotate_frame, rotate_events, fire_frame]

theorem enemy_tick_frame (w : World) (e : AEnemyTank) :
    (AEnemyTank.Tick w e).1.MaxHealth = e.MaxHealth ∧
    (AEnemyTank.Tick w e).1.CurrentHealth = e.CurrentHealth ∧
    (AEnemyTank.Tick w e).1.bIsDestroyed = e.bIsDestroyed := by
  unfold AEnemyTank.Tick
  split_ifs
  · have h := handlers_frame w (AEnemyTank.UpdateAIState w e)
    have hb : (AEnemyTank.UpdateAIState w e).toATankBase = e.toATankBase := by
      rw [updateAIState_frame w e]
    rw [hb] at h
    exact h
  · simp

theorem player_tick_frame (w : World) (p : APlayerTank) :
    (APlayerTank.Tick w p).1.MaxHealth = p.MaxHealth ∧
    (APlayerTank.Tick w p).1.CurrentHealth = p.CurrentHealth ∧
    (APlayerTank.Tick w p).1.bIsDestroyed = p.bIsDestroyed := by
  unfold APlayerTank.Tick
  split_ifs
  · simp [APlayerTank.withBase, rotate_frame, rotate_events]
  · simp

theorem player_step_healthInv (w : World) (p : APlayerTank) (op : PlayerOp)
    (h : p.HealthInv) (hnn : p.bIsDestroyed = true → op.appliedNonneg w = true) :
    (p.step w op).1.HealthInv := by
  cases op with
  | Tick =>
    obtain ⟨h1, h2, h3⟩ := player_tick_frame w p
    exact healthInv_of_fields _ _ h h1 h2 h3
  | Fire =>
    obtain ⟨h1, h2, h3⟩ := fire_frame w p.toATankBase
    exact healthInv_of_fields _ _ h h1 h2 h3
  | RotateTurretTowards T =>
    obtain ⟨h1, h2⟩ := rotate_frame w p.toATankBase T
    exact healthInv_of_fields _ _ h h1 h2 (rotate_events w p.toATankBase T).2.2
  | MoveForward v =>
    have : (p.step w (PlayerOp.MoveForward v)).1 = p := by
      simp only [APlayerTank.step, APlayerTank.MoveForward]
      split_ifs <;> rfl
    rw [this]; exact h
  | Turn v =>
    have : (p.step w (PlayerOp.Turn v)).1 = p := by
      simp only [APlayerTank.step, APlayerTank.Turn]
      split_ifs <;> rfl
    rw [this]; exact h
  | TakeDamage a =>
    have hnn2 : p.bIsDestroyed = true → 0 ≤ w.SuperTakeDamage a := by
      intro hd
      simpa [PlayerOp.appliedNonneg] using hnn hd
    exact takeDamage_healthInv TankClass.PlayerTank w p.toATankBase a h hnn2

theorem enemy_step_healthInv (w : World) (e : AEnemyTank) (op : EnemyOp)
    (h : e.HealthInv) (hnn : e.bIsDestroyed = true → op.appliedNonneg w = true) :
    (e.step w op).1.HealthInv := by
  cases op with
  | Tick =>
    obtain ⟨h1, h2, h3⟩ := enemy_tick_frame w e
    exact healthInv_of_fields _ _ h h1 h2 h3
  | Fire =>
    obtain ⟨h1, h2, h3⟩ := fire_frame w e.toATankBase
    exact healthInv_of_fields _ _ h h1 h2 h3
  | RotateTurretTowards T =>
    obtain ⟨h1, h2⟩ := rotate_frame w e.toATankBase T
    exact healthInv_of_fields _ _ h h1 h2 (rotate_events w e.toATankBase T).2.2
  | TakeDamage a =>
    have hnn2 : e.bIsDestroyed = true → 0 ≤ w.SuperTakeDamage a := by
      intro hd
      simpa [EnemyOp.appliedNonneg] using hnn hd
    exact takeDamage_healthInv TankClass.EnemyTank w e.toATankBase a h hnn2

theorem player_run_healthInv (calls : List (World × PlayerOp)) :
    ∀ p : APlayerTank, p.HealthInv → p.wreckDamageNonneg calls = true →
      (p.run calls).HealthInv := by
  induction calls with
  | nil => intro p h _; exact h
  | cons c cs ih =>
    intro p h hnn
    simp only [APlayerTank.wreckDamageNonneg, Bool.and_eq_true, Bool.or_eq_true,
      Bool.not_eq_true'] at hnn
    refine ih _ (player_step_healthInv c.1 p c.2 h ?_) hnn.2
    intro hd
    rcases hnn.1 with hl | hl
    · rw [hd] at hl; exact Bool.noConfusion hl
    · exact hl

theorem enemy_run_healthInv (calls : List (World × EnemyOp)) :
    ∀ e : AEnemyTank, e.HealthInv → e.wreckDamageNonneg calls = true →
      (e.run calls).HealthInv := by
  induction calls with
  | nil => intro e h _; exact h
  | cons c cs ih =>
    intro e h hnn
    simp only [AEnemyTank.wreckDamageNonneg, Bool.and_eq_true, Bool.or_eq_true,
      Bool.not_eq_true'] at hnn
    refine ih _ (enemy_step_healthInv c.1 e c.2 h ?_) hnn.2
    intro hd
    rcases hnn.1 with hl | hl
    · rw [hd] at hl; exact Bool.noConfusion hl
    · exact hl

theorem player_step_dead (w : World) (p : APlayerTank) (op : PlayerOp) (h : p.HealthInv)
    (hdead : p.bIsDestroyed = true) (hnn : op.appliedNonneg w = true) :
    p.step w op = (p, []) := by
  cases op with
  | Tick => simp [APlayerTank.step, APlayerTank.Tick, ATankBase.IsDestroyed, hdead]
  | Fire => simp [APlayerTank.step, APlayerTank.FireInput, dead_fire w _ hdead, APlayerTank.withBase]
  | RotateTurretTowards T =>
    simp [APlayerTank.step, dead_rotate w _ T hdead, APlayerTank.withBase]
  | MoveForward v => simp [APlayerTank.step, APlayerTank.MoveForward, ATankBase.IsDestroyed, hdead]
  | Turn v => simp [APlayerTank.step, APlayerTank.Turn, ATankBase.IsDestroyed, hdead]
  | TakeDamage a =>
    have hnn2 : 0 ≤ w.SuperTakeDamage a := by
      simpa [PlayerOp.appliedNonneg] using hnn
    have := dead_tank_takes_no_damage TankClass.PlayerTank w p.toATankBase a h.1 (h.2 hdead)
      hdead hnn2
    simp only [TankClass.HandleDestruction] at this
    simp [APlayerTank.step, APlayerTank.TakeDamage, this]

theorem enemy_step_dead (w : World) (e : AEnemyTank) (op : EnemyOp) (h : e.HealthInv)
    (hdead : e.bIsDestroyed = true) (hnn : op.appliedNonneg w = true) :
    e.step w op = (e, []) := by
  cases op with
  | Tick => simp [AEnemyTank.step, AEnemyTank.Tick, ATankBase.IsDestroyed, hdead]
  | Fire => simp [AEnemyTank.step, dead_fire w _ hdead, AEnemyTank.withBase]
  | RotateTurretTowards T =>
    simp [AEnemyTank.step, dead_rotate w _ T hdead, AEnemyTank.withBase]
  | TakeDamage a =>
    have hnn2 : 0 ≤ w.SuperTakeDamage a := by
      simpa [EnemyOp.appliedNonneg] using hnn
    have := dead_tank_takes_no_damage TankClass.EnemyTank w e.toATankBase a h.1 (h.2 hdead)
      hdead hnn2
    simp only [TankClass.HandleDestruction] at this
    simp [AEnemyTank.step, AEnemyTank.TakeDamage, this]

theorem player_step_latch (w : World) (p : APlayerTank) (op : PlayerOp)
    (hdead : p.bIsDestroyed = true) : (p.step w op).1.bIsDestroyed = true := by
  cases op with
  | Tick => rw [← hdead]; exact (player_tick_frame w p).2.2
  | Fire => rw [← hdead]; exact (fire_frame w p.toATankBase).2.2
  | RotateTurretTowards T => rw [← hdead]; exact (rotate_events w p.toATankBase T).2.2
  | MoveForward v => simp [APlayerTank.step, APlayerTank.MoveForward, ATankBase.IsDestroyed, hdead]
  | Turn v => simp [APlayerTank.step, APlayerTank.Turn, ATankBase.IsDestroyed, hdead]
  | TakeDamage a =>
    exact ((tank_step_destruction TankClass.PlayerTank w p.toATankBase a).1 hdead).1

theorem enemy_step_latch (w : World) (e : AEnemyTank) (op : EnemyOp)
    (hdead : e.bIsDestroyed = true) : (e.step w op).1.bIsDestroyed = true := by
  cases op with
  | Tick => rw [← hdead]; exact (enemy_tick_frame w e).2.2
  | Fire => rw [← hdead]; exact (fire_frame w e.toATankBase).2.2
  | RotateTurretTowards T => rw [← hdead]; exact (rotate_events w e.toATankBase T).2.2
  | TakeDamage a =>
    exact ((tank_step_destruction TankClass.EnemyTank w e.toATankBase a).1 hdead).1

theorem hitPlayer_destroyed : hitPlayer.bIsDestroyed = true := by
  norm_num [hitPlayer, APlayerTank.run, APlayerTank.step, APlayerTank.TakeDamage,
    ATankBase.TakeDamageVia, APlayerTank.HandleDestruction, ATankBase.HandleDestruction,
    APlayerTank.BeginPlay, ATankBase.BeginPlay, APlayerTank.ctor, ATankBase.ctor, sampleWorld,
    FMath.Clamp]

theorem hitEnemy_destroyed : hitEnemy.bIsDestroyed = true := by
  have h1 := (enemy_tick_frame (sampleWorld 1)
    (AEnemyTank.BeginPlay (sampleWorld 0) (AEnemyTank.ctor 4)))
  have hM : (AEnemyTank.BeginPlay (sampleWorld 0) (AEnemyTank.ctor 4)).MaxHealth = 100 := rfl
  have hC : (AEnemyTank.BeginPlay (sampleWorld 0) (AEnemyTank.ctor 4)).CurrentHealth = 100 := rfl
  have hD : (AEnemyTank.BeginPlay (sampleWorld 0) (AEnemyTank.ctor 4)).bIsDestroyed = false :=
    rfl
  rw [hM, hC, hD] at h1
  obtain ⟨a, b, c⟩ := h1
  simp only [hitEnemy, AEnemyTank.run, AEnemyTank.step, AEnemyTank.TakeDamage,
    ATankBase.TakeDamageVia, a, b, c]
  norm_num [sampleWorld, FMath.Clamp, AEnemyTank.HandleDestruction,
    ATankBase.HandleDestruction]

/-- C10, the claim as stated fails. The player tank `hitPlayer` has been destroyed
by two hits of `60` (health `0`, `bIsDestroyed = true`). A further `TakeDamage`
whose applied amount is `-50` is processed: `ATankBase::TakeDamage` has no early
return for a destroyed tank and stores `Clamp(0 + 50, 0, 100) = 50`, so
`CurrentHealth` does not stay as it was (`bIsDestroyed` stays `true`). -/
theorem C10_counterexample :
    hitPlayer.bIsDestroyed = true ∧
    hitPlayer.CurrentHealth = 0 ∧
    (hitPlayer.step (sampleWorld 5) (PlayerOp.TakeDamage (-50))).1.CurrentHealth = 50 ∧
    (hitPlayer.step (sampleWorld 5) (PlayerOp.TakeDamage (-50))).1.bIsDestroyed = true ∧
    (hitPlayer.step (sampleWorld 5) (PlayerOp.TakeDamage (-50))).1 ≠ hitPlayer := by
  have hstate : hitPlayer.bIsDestroyed = true ∧ hitPlayer.CurrentHealth = 0 ∧
      hitPlayer.MaxHealth = 100 := by
    norm_num [hitPlayer, APlayerTank.run, APlayerTank.step, APlayerTank.TakeDamage,
      ATankBase.TakeDamageVia, APlayerTank.HandleDestruction, ATankBase.HandleDestruction,
      APlayerTank.BeginPlay, ATankBase.BeginPlay, APlayerTank.ctor, ATankBase.ctor,
      sampleWorld, FMath.Clamp]
  obtain ⟨hd, hc, hm⟩ := hstate
  have hnew :
      (hitPlayer.step (sampleWorld 5) (PlayerOp.TakeDamage (-50))).1.CurrentHealth = 50 := by
    simp only [APlayerTank.step, APlayerTank.TakeDamage, ATankBase.TakeDamageVia, hd, hc, hm]
    norm_num [sampleWorld, FMath.Clamp]
  refine ⟨hd, hc, hnew, ?_, ?_⟩
  · exact player_step_latch (sampleWorld 5) hitPlayer (PlayerOp.TakeDamage (-50)) hd
  · intro heq
    rw [heq, hc] at hnew
    norm_num at hnew

/-- C10 as amended. For every player tank and every enemy tank: no operation
(`Tick`, `Fire`, `RotateTurretTowards`, `MoveForward`, `Turn`, `TakeDamage`) changes
`bIsDestroyed` from `true` to `false`, whatever the state and the arguments. And
for a tank in play (constructed not destroyed with `MaxHealth > 0`, started by
`BeginPlay`, then driven by any sequence of these operations), once `bIsDestroyed`
is true none of these operations, `TakeDamage` being called on the destroyed tank
with an applied amount `≥ 0`, does anything further: the operation returns the very
same state (so `CurrentHealth`, the turret rotation, `LastFireTime` and the AI state
stay as they were) and issues no command (no movement request, no projectile spawn,
no second destruction). The `TakeDamage` calls that reach the tank while it is
still alive may carry any amount. -/
theorem C10_destroyed_latch :
    (∀ (w : World) (p : APlayerTank) (op : PlayerOp), p.bIsDestroyed = true →
      (p.step w op).1.bIsDestroyed = true) ∧
    (∀ (w : World) (e : AEnemyTank) (op : EnemyOp), e.bIsDestroyed = true →
      (e.step w op).1.bIsDestroyed = true) ∧
    (∀ (w0 : World) (p0 : APlayerTank) (calls : List (World × PlayerOp)),
      0 < p0.MaxHealth → p0.bIsDestroyed = false →
      (p0.BeginPlay w0).wreckDamageNonneg calls = true →
      ((p0.BeginPlay w0).run calls).bIsDestroyed = true →
      ∀ (w : World) (op : PlayerOp), op.appliedNonneg w = true →
        ((p0.BeginPlay w0).run calls).step w op = ((p0.BeginPlay w0).run calls, [])) ∧
    (∀ (w0 : World) (e0 : AEnemyTank) (calls : List (World × EnemyOp)),
      0 < e0.MaxHealth → e0.bIsDestroyed = false →
      (e0.BeginPlay w0).wreckDamageNonneg calls = true →
      ((e0.BeginPlay w0).run calls).bIsDestroyed = true →
      ∀ (w : World) (op : EnemyOp), op.appliedNonneg w = true →
        ((e0.BeginPlay w0).run calls).step w op = ((e0.BeginPlay w0).run calls, [])) := by
  refine ⟨player_step_latch, enemy_step_latch, ?_, ?_⟩
  · intro w0 p0 calls hMax hlive hnn hdead w op hop
    have hinit : (p0.BeginPlay w0).HealthInv := by
      refine ⟨hMax, ?_⟩
      intro h
      have : (p0.BeginPlay w0).bIsDestroyed = false := hlive
      rw [this] at h
      exact Bool.noConfusion h
    exact player_step_dead w _ op (player_run_healthInv calls _ hinit hnn) hdead hop
  · intro w0 e0 calls hMax hlive hnn hdead w op hop
    have hinit : (e0.BeginPlay w0).HealthInv := by
      refine ⟨hMax, ?_⟩
      intro h
      have : (e0.BeginPlay w0).bIsDestroyed = false := hlive
      rw [this] at h
      exact Bool.noConfusion h
    exact enemy_step_dead w _ op (enemy_run_healthInv calls _ hinit hnn) hdead hop

theorem wreckedPlayer_eval :
    wreckedPlayer.bIsDestroyed = true ∧
    (APlayerTank.BeginPlay (sampleWorld 0) loadedPlayer).wreckDamageNonneg wreckPlayerCalls
      = true := by
  norm_num [wreckedPlayer, wreckPlayerCalls, loadedPlayer, APlayerTank.wreckDamageNonneg,
    PlayerOp.appliedNonneg, APlayerTank.run, APlayerTank.step, APlayerTank.TakeDamage,
    ATankBase.TakeDamageVia, APlayerTank.HandleDestruction, ATankBase.HandleDestruction,
    APlayerTank.BeginPlay, ATankBase.BeginPlay, APlayerTank.ctor, ATankBase.ctor, sampleWorld,
    FMath.Clamp]

theorem wreckedEnemy_eval :
    wreckedEnemy.bIsDestroyed = true ∧
    (AEnemyTank.BeginPlay (sampleWorld 0) loadedEnemy).wreckDamageNonneg wreckEnemyCalls
      = true := by
  norm_num [wreckedEnemy, wreckEnemyCalls, loadedEnemy, AEnemyTank.wreckDamageNonneg,
    EnemyOp.appliedNonneg, AEnemyTank.run, AEnemyTank.step, AEnemyTank.TakeDamage,
    ATankBase.TakeDamageVia, AEnemyTank.HandleDestruction, ATankBase.HandleDestruction,
    AEnemyTank.BeginPlay, ATankBase.BeginPlay, AEnemyTank.ctor, ATankBase.ctor, sampleWorld,
    clearShotWorld, FMath.Clamp, AEnemyTank.Tick, ATankBase.IsDestroyed,
    AEnemyTank.UpdateAIState, AEnemyTank.ExecuteAIBehavior, AEnemyTank.HandleAttackingState,
    AEnemyTank.withBase, ATankBase.RotateTurretTowards, ATankBase.Fire,
    AEnemyTank.GetRandomPatrolPoint]

theorem live_tanks_fire :
    (∃ l r, Event.SpawnActor l r ∈
      ((APlayerTank.BeginPlay (sampleWorld 0) loadedPlayer).step (sampleWorld 5)
        PlayerOp.Fire).2) ∧
    (∃ l r, Event.SpawnActor l r ∈
      ((AEnemyTank.BeginPlay (sampleWorld 0) loadedEnemy).step (clearShotWorld 5)
        EnemyOp.Tick).2) := by
  constructor
  · refine ⟨FVector.ZeroVector, FRotator.ZeroRotator, ?_⟩
    norm_num [loadedPlayer, APlayerTank.step, APlayerTank.FireInput, APlayerTank.withBase,
      ATankBase.Fire, APlayerTank.BeginPlay, ATankBase.BeginPlay, APlayerTank.ctor,
      ATankBase.ctor, sampleWorld]
  · refine ⟨FVector.ZeroVector, FRotator.ZeroRotator, ?_⟩
    norm_num [loadedEnemy, AEnemyTank.step, AEnemyTank.BeginPlay, ATankBase.BeginPlay,
      AEnemyTank.ctor, ATankBase.ctor, sampleWorld, clearShotWorld, AEnemyTank.Tick,
      ATankBase.IsDestroyed, AEnemyTank.UpdateAIState, AEnemyTank.ExecuteAIBehavior,
      AEnemyTank.HandleAttackingState, AEnemyTank.withBase, ATankBase.RotateTurretTowards,
      ATankBase.Fire, AEnemyTank.GetRandomPatrolPoint]

/-- Witness for C10 as amended. The player `wreckedPlayer` (healed by `-10` while
alive, then destroyed by two hits of `60`) receives `Fire` at a time when the live
tank does spawn a projectile, and `TakeDamage 25`; the enemy `wreckedEnemy` (ticked
with a clear shot, healed by `-10` while alive, then destroyed by a hit of `100`)
receives `Tick` in a world where the live tank does fire. Nothing changes and no
command is issued; `bIsDestroyed` also survives a `TakeDamage (-50)`. -/
theorem C10_destroyed_latch_witness :
    (wreckedPlayer.bIsDestroyed = true ∧
      (∃ l r, Event.SpawnActor l r ∈
        ((APlayerTank.BeginPlay (sampleWorld 0) loadedPlayer).step (sampleWorld 5)
          PlayerOp.Fire).2) ∧
      wreckedPlayer.step (sampleWorld 5) PlayerOp.Fire = (wreckedPlayer, []) ∧
      wreckedPlayer.step (sampleWorld 5) (PlayerOp.TakeDamage 25) = (wreckedPlayer, []) ∧
      (wreckedPlayer.step (sampleWorld 5) (PlayerOp.TakeDamage (-50))).1.bIsDestroyed = true) ∧
    (wreckedEnemy.bIsDestroyed = true ∧
      (∃ l r, Event.SpawnActor l r ∈
        ((AEnemyTank.BeginPlay (sampleWorld 0) loadedEnemy).step (clearShotWorld 5)
          EnemyOp.Tick).2) ∧
      wreckedEnemy.step (clearShotWorld 5) EnemyOp.Tick = (wreckedEnemy, []) ∧
      wreckedEnemy.step (sampleWorld 5) (EnemyOp.TakeDamage 25) = (wreckedEnemy, [])) :=
  ⟨⟨wreckedPlayer_eval.1, live_tanks_fire.1,
    C10_destroyed_latch.2.2.1 (sampleWorld 0) loadedPlayer wreckPlayerCalls
      (by norm_num [loadedPlayer, APlayerTank.ctor, ATankBase.ctor]) rfl
      wreckedPlayer_eval.2 wreckedPlayer_eval.1 (sampleWorld 5) PlayerOp.Fire rfl,
    C10_destroyed_latch.2.2.1 (sampleWorld 0) loadedPlayer wreckPlayerCalls
      (by norm_num [loadedPlayer, APlayerTank.ctor, ATankBase.ctor]) rfl
      wreckedPlayer_eval.2 wreckedPlayer_eval.1 (sampleWorld 5) (PlayerOp.TakeDamage 25)
      (by simp [PlayerOp.appliedNonneg, sampleWorld]),
    C10_destroyed_latch.1 (sampleWorld 5) wreckedPlayer (PlayerOp.TakeDamage (-50))
      wreckedPlayer_eval.1⟩,
   ⟨wreckedEnemy_eval.1, live_tanks_fire.2,
    C10_destroyed_latch.2.2.2 (sampleWorld 0) loadedEnemy wreckEnemyCalls
      (by norm_num [loadedEnemy, AEnemyTank.ctor, ATankBase.ctor]) rfl
      wreckedEnemy_eval.2 wreckedEnemy_eval.1 (clearShotWorld 5) EnemyOp.Tick rfl,
    C10_destroyed_latch.2.2.2 (sampleWorld 0) loadedEnemy wreckEnemyCalls
      (by norm_num [loadedEnemy, AEnemyTank.ctor, ATankBase.ctor]) rfl
      wreckedEnemy_eval.2 wreckedEnemy_eval.1 (sampleWorld 5) (EnemyOp.TakeDamage 25)
      (by simp [EnemyOp.appliedNonneg, sampleWorld])⟩⟩

/-! ## Monotone fire timestamp -/

theorem fire_step_monotone (w : World) (t : ATankBase) (hrate : 0 < t.FireRate) :
    t.LastFireTime ≤ (ATankBase.Fire w t).1.LastFireTime ∧
    (ATankBase.Fire w t).1.FireRate = t.FireRate ∧
    ((ATankBase.Fire w t).1.LastFireTime ≠ t.LastFireTime →
      ∃ Projectile,
        w.SpawnActor (w.SpawnPointLocation t.self) (w.SpawnPointRotation t.self)
          = some Projectile ∧
        ATankBase.Fire w t
          = ({ t with LastFireTime := w.TimeSeconds },
             [Event.SpawnActor (w.SpawnPointLocation t.self) (w.SpawnPointRotation t.self),
              Event.SetOwner Projectile t.self])) := by
  by_cases hg : t.bIsDestroyed = false ∧ w.TimeSeconds - t.LastFireTime ≥ 1 / t.FireRate ∧
      t.ProjectileClass = true ∧ t.ProjectileSpawnPoint = true
  · cases hs : w.SpawnActor (w.SpawnPointLocation t.self) (w.SpawnPointRotation t.self) with
    | none =>
      rw [((fire_cases w t).2 hg).2 hs]
      exact ⟨le_refl _, rfl, fun h => absurd rfl h⟩
    | some P =>
      rw [((fire_cases w t).2 hg).1 P hs]
      refine ⟨?_, rfl, fun _ => ⟨P, rfl, rfl⟩⟩
      have hpos : 0 < 1 / t.FireRate := one_div_pos.mpr hrate
      have := hg.2.1
      simp only [ge_iff_le] at this
      show t.LastFireTime ≤ w.TimeSeconds
      linarith
  · rw [(fire_cases w t).1 hg]
    exact ⟨le_refl _, rfl, fun h => absurd rfl h⟩

theorem fire_seq_monotone (ws : List World) :
    ∀ t : ATankBase, 0 < t.FireRate →
      t.LastFireTime ≤ (ATankBase.FireSeq t ws).LastFireTime ∧
      (ATankBase.FireSeq t ws).FireRate = t.FireRate := by
  induction ws with
  | nil => intro t _; exact ⟨le_refl _, rfl⟩
  | cons w ws ih =>
    intro t hrate
    obtain ⟨h1, h2, _⟩ := fire_step_monotone w t hrate
    obtain ⟨h3, h4⟩ := ih (ATankBase.Fire w t).1 (by rw [h2]; exact hrate)
    exact ⟨le_trans h1 h3, by rw [← h2]; exact h4⟩

/-- C11 (`LastFireTime` is monotone). For every tank with `FireRate > 0` and every
sequence of `Fire` calls at arbitrary times, with spawns succeeding or failing
arbitrarily (the calls `ws` already made and the next call `w`): `LastFireTime`
after the calls made so far is not below its starting value, the next call does not
decrease it, and the next call changes it only if that call requested a spawn that
returned a projectile, in which case the projectile's owner is set to the tank and
`LastFireTime` becomes the time of the call. -/
theorem C11_last_fire_time_monotone (t : ATankBase) (hrate : 0 < t.FireRate)
    (ws : List World) (w : World) :
    t.LastFireTime ≤ (ATankBase.FireSeq t ws).LastFireTime ∧
    (ATankBase.FireSeq t ws).LastFireTime
      ≤ (ATankBase.Fire w (ATankBase.FireSeq t ws)).1.LastFireTime ∧
    ((ATankBase.Fire w (ATankBase.FireSeq t ws)).1.LastFireTime
        ≠ (ATankBase.FireSeq t ws).LastFireTime →
      ∃ Projectile,
        w.SpawnActor (w.SpawnPointLocation (ATankBase.FireSeq t ws).self)
            (w.SpawnPointRotation (ATankBase.FireSeq t ws).self) = some Projectile ∧
        Event.SpawnActor (w.SpawnPointLocation (ATankBase.FireSeq t ws).self)
            (w.SpawnPointRotation (ATankBase.FireSeq t ws).self)
          ∈ (ATankBase.Fire w (ATankBase.FireSeq t ws)).2 ∧
        Event.SetOwner Projectile (ATankBase.FireSeq t ws).self
          ∈ (ATankBase.Fire w (ATankBase.FireSeq t ws)).2 ∧
        (ATankBase.Fire w (ATankBase.FireSeq t ws)).1.LastFireTime = w.TimeSeconds) := by
  obtain ⟨h1, h2⟩ := fire_seq_monotone ws t hrate
  obtain ⟨h3, _, h5⟩ := fire_step_monotone w (ATankBase.FireSeq t ws) (by rw [h2]; exact hrate)
  refine ⟨h1, h3, ?_⟩
  intro hne
  obtain ⟨P, hP, hfire⟩ := h5 hne
  refine ⟨P, hP, ?_, ?_, ?_⟩
  · rw [hfire]; simp
  · rw [hfire]; simp
  · rw [hfire]

/-- Witness for C11: `sampleTank` fires at time `0.5` (spawn succeeds), at time
`1.5` (spawn fails) and then at time `2` (spawn succeeds): `LastFireTime` goes
`0`, `0.5`, `0.5`, `2`. -/
theorem C11_last_fire_time_monotone_witness :
    0 < sampleTank.FireRate ∧
    (ATankBase.FireSeq sampleTank [sampleWorld 0.5]).LastFireTime = 0.5 ∧
    (ATankBase.FireSeq sampleTank [sampleWorld 0.5, failedSpawnWorld 1.5]).LastFireTime = 0.5 ∧
    (ATankBase.Fire (sampleWorld 2)
      (ATankBase.FireSeq sampleTank [sampleWorld 0.5, failedSpawnWorld 1.5])).1.LastFireTime
        = 2 ∧
    sampleTank.LastFireTime
      ≤ (ATankBase.FireSeq sampleTank [sampleWorld 0.5, failedSpawnWorld 1.5]).LastFireTime ∧
    (ATankBase.FireSeq sampleTank [sampleWorld 0.5, failedSpawnWorld 1.5]).LastFireTime
      ≤ (ATankBase.Fire (sampleWorld 2)
          (ATankBase.FireSeq sampleTank
            [sampleWorld 0.5, failedSpawnWorld 1.5])).1.LastFireTime := by
  have hrate : 0 < sampleTank.FireRate := by norm_num [sampleTank_eval.2.2.1]
  have h := C11_last_fire_time_monotone sampleTank hrate
    [sampleWorld 0.5, failedSpawnWorld 1.5] (sampleWorld 2)
  refine ⟨hrate, ?_, ?_, ?_, h.1, h.2.1⟩
  · norm_num [ATankBase.FireSeq, ATankBase.Fire, sampleTank, ATankBase.BeginPlay,
      ATankBase.ctor, sampleWorld]
  · norm_num [ATankBase.FireSeq, ATankBase.Fire, sampleTank, ATankBase.BeginPlay,
      ATankBase.ctor, sampleWorld, failedSpawnWorld]
  · norm_num [ATankBase.FireSeq, ATankBase.Fire, sampleTank, ATankBase.BeginPlay,
      ATankBase.ctor, sampleWorld, failedSpawnWorld]

/-! ## Turret aim -/

theorem rotate_live (w : World) (t : ATankBase) (TargetLocation : FVector)
    (hturret : t.TankTurret = true) (hlive : t.bIsDestroyed = false) :
    ATankBase.RotateTurretTowards w t TargetLocation
      = ({ t with
           TurretRotation :=
             ⟨0,
              (w.RInterpTo t.TurretRotation
                (w.Rotation
                  { FVector.sub TargetLocation (w.TurretLocation t.self) with Z := 0 })
                w.DeltaSeconds t.TurretRotationSpeed).Yaw,
              0⟩ }, []) := by
  simp [ATankBase.RotateTurretTowards, hturret, hlive]

theorem rotate_noop (w : World) (t : ATankBase) (TargetLocation : FVector)
    (h : t.TankTurret = false ∨ t.bIsDestroyed = true) :
    ATankBase.RotateTurretTowards w t TargetLocation = (t, []) := by
  rcases h with h | h <;> simp [ATankBase.RotateTurretTowards, h]

theorem rotate_seq_live (calls : List (World × FVector)) :
    ∀ t : ATankBase, t.TankTurret = true → t.bIsDestroyed = false →
      (ATankBase.RotateSeq t calls).TankTurret = true ∧
      (ATankBase.RotateSeq t calls).bIsDestroyed = false := by
  induction calls with
  | nil => intro t h1 h2; exact ⟨h1, h2⟩
  | cons c cs ih =>
    intro t h1 h2
    have hstep := rotate_live c.1 t c.2 h1 h2
    simp only [ATankBase.RotateSeq, hstep]
    exact ih _ h1 h2

theorem tiltedTank_eval :
    tiltedTank.TankTurret = true ∧ tiltedTank.bIsDestroyed = false ∧
    tiltedTank.TurretRotation = ⟨10, 20, 5⟩ ∧ tiltedTank.self = 2 := by
  simp [tiltedTank, sampleTank, ATankBase.BeginPlay, ATankBase.ctor]

theorem tiltedWreck_eval :
    tiltedWreck.bIsDestroyed = true ∧ tiltedWreck.TankTurret = true ∧
    tiltedWreck.TurretRotation = ⟨10, 20, 5⟩ := by
  norm_num [tiltedWreck, tiltedTank, ATankBase.TakeDamage, ATankBase.TakeDamageVia,
    ATankBase.HandleDestruction, sampleTank, sampleWorld, FMath.Clamp, ATankBase.BeginPlay,
    ATankBase.ctor]

/-- C12, the claim as stated fails. The tank `tiltedTank` starts with its turret at
pitch `10`, yaw `20`, roll `5` and is destroyed by `TakeDamage 100`. A
`RotateTurretTowards` call on the destroyed tank returns at the guard
`!TankTurret || bIsDestroyed`, so the turret orientation after the call still has
pitch `10` and roll `5`, not `0`. -/
theorem C12_counterexample :
    tiltedTank.TurretRotation = ⟨10, 20, 5⟩ ∧
    (ATankBase.TakeDamage (sampleWorld 0) tiltedTank 100).2.1.bIsDestroyed = true ∧
    (ATankBase.RotateTurretTowards (turningWorld 1)
      (ATankBase.TakeDamage (sampleWorld 0) tiltedTank 100).2.1
      ⟨100, 0, 0⟩).1.TurretRotation.Pitch = 10 ∧
    (ATankBase.RotateTurretTowards (turningWorld 1)
      (ATankBase.TakeDamage (sampleWorld 0) tiltedTank 100).2.1
      ⟨100, 0, 0⟩).1.TurretRotation.Roll = 5 ∧
    ¬ (ATankBase.RotateTurretTowards (turningWorld 1)
      (ATankBase.TakeDamage (sampleWorld 0) tiltedTank 100).2.1
      ⟨100, 0, 0⟩).1.TurretRotation.Pitch = 0 := by
  have h := tiltedWreck_eval
  have hno := rotate_noop (turningWorld 1) tiltedWreck ⟨100, 0, 0⟩ (Or.inr h.1)
  unfold tiltedWreck at h hno
  rw [hno, h.2.2]
  refine ⟨tiltedTank_eval.2.2.1, h.1, rfl, rfl, ?_⟩
  norm_num

/-- C12 as amended. For every tank that is not destroyed and has its turret
component, every starting turret orientation and every sequence of
`RotateTurretTowards` calls with arbitrary target points and elapsed times (the
calls already made and the next call): the turret orientation resulting from the
next call has pitch exactly `0` and roll exactly `0`, its yaw is the yaw of the
interpolation from the current orientation toward the horizontal bearing of the
target, and nothing else of the tank changes. On a destroyed tank, or one without
turret component, the call is a no-op that leaves the orientation as it was. -/
theorem C12_turret_yaw_only (t : ATankBase) (hturret : t.TankTurret = true)
    (hlive : t.bIsDestroyed = false) (calls : List (World × FVector)) (w : World)
    (TargetLocation : FVector) :
    (ATankBase.RotateTurretTowards w (ATankBase.RotateSeq t calls)
        TargetLocation).1.TurretRotation.Pitch = 0 ∧
    (ATankBase.RotateTurretTowards w (ATankBase.RotateSeq t calls)
        TargetLocation).1.TurretRotation.Roll = 0 ∧
    (ATankBase.RotateTurretTowards w (ATankBase.RotateSeq t calls)
        TargetLocation).1.TurretRotation.Yaw
      = (w.RInterpTo (ATankBase.RotateSeq t calls).TurretRotation
          (w.Rotation
            { FVector.sub TargetLocation (w.TurretLocation (ATankBase.RotateSeq t calls).self)
              with Z := 0 })
          w.DeltaSeconds (ATankBase.RotateSeq t calls).TurretRotationSpeed).Yaw ∧
    (ATankBase.RotateTurretTowards w (ATankBase.RotateSeq t calls) TargetLocation).1
      = { ATankBase.RotateSeq t calls with
          TurretRotation :=
            (ATankBase.RotateTurretTowards w (ATankBase.RotateSeq t calls)
              TargetLocation).1.TurretRotation } ∧
    (∀ u : ATankBase, (u.TankTurret = false ∨ u.bIsDestroyed = true) →
      ATankBase.RotateTurretTowards w u TargetLocation = (u, [])) := by
  obtain ⟨h1, h2⟩ := rotate_seq_live calls t hturret hlive
  rw [rotate_live w (ATankBase.RotateSeq t calls) TargetLocation h1 h2]
  exact ⟨rfl, rfl, rfl, rfl, fun u hu => rotate_noop w u TargetLocation hu⟩

/-- Witness for C12 as amended: the live tank `tiltedTank` (turret at pitch `10`,
yaw `20`, roll `5`) is aimed once at `(100, 0, 0)` and then at `(0, 50, 7)`; after
the second call the turret has pitch `0`, yaw `90`, roll `0`. -/
theorem C12_turret_yaw_only_witness :
    (tiltedTank.TankTurret = true ∧ tiltedTank.bIsDestroyed = false) ∧
    (ATankBase.RotateTurretTowards (turningWorld 1)
        (ATankBase.RotateSeq tiltedTank [(turningWorld 0, ⟨100, 0, 0⟩)])
        ⟨0, 50, 7⟩).1.TurretRotation.Pitch = 0 ∧
    (ATankBase.RotateTurretTowards (turningWorld 1)
        (ATankBase.RotateSeq tiltedTank [(turningWorld 0, ⟨100, 0, 0⟩)])
        ⟨0, 50, 7⟩).1.TurretRotation.Roll = 0 ∧
    (ATankBase.RotateTurretTowards (turningWorld 1)
        (ATankBase.RotateSeq tiltedTank [(turningWorld 0, ⟨100, 0, 0⟩)])
        ⟨0, 50, 7⟩).1.TurretRotation.Yaw = 90 := by
  have h := C12_turret_yaw_only tiltedTank tiltedTank_eval.1 tiltedTank_eval.2.1
    [(turningWorld 0, ⟨100, 0, 0⟩)] (turningWorld 1) ⟨0, 50, 7⟩
  refine ⟨⟨tiltedTank_eval.1, tiltedTank_eval.2.1⟩, h.1, h.2.1, ?_⟩
  rw [h.2.2.1]
  simp [turningWorld, sampleWorld]

end TankBattle
